import Mathlib

/-!
Shallow embedding of the `mqtt_saver` persistence service (`src/saver/saver.py`,
class `Saver`) and proofs about its specification claims.

The embedding models the pure computational content of the saver: path
construction, header selection, the run-context state (target folder and run
epoch), the on-disk filesystem as an explicit value, the backup queue, and the
dispatch/routing logic of `save_handler`.  External libraries (HMAC-SHA1,
`datetime` formatting, pandas dataframe processing) enter as opaque function
parameters, mirroring their use as black boxes in the source.
-/

namespace MqttSaver

/-! ### String helpers

Python string operations used by the source, embedded as executable functions
over `List Char` so that they reduce in the kernel. -/

/-- Embedding of Python `str.split(sep)` for a single-character separator:
`"a/b".split("/") = ["a","b"]`, `"".split("/") = [""]`. -/
def splitOnCharList (c : Char) : List Char → List (List Char)
  | [] => [[]]
  | x :: xs =>
    if x = c then [] :: splitOnCharList c xs
    else
      match splitOnCharList c xs with
      | r :: rs => (x :: r) :: rs
      | [] => [[x]]

/-- String-level wrapper for `splitOnCharList`. -/
def strSplitOn (c : Char) (s : String) : List String :=
  (splitOnCharList c s.data).map List.asString

/-- Embedding of Python `str.startswith`. -/
def strStartsWith (s pre : String) : Bool :=
  pre.data.isPrefixOf s.data

/-- Embedding of Python `str.replace(pat, rep)` (replace all occurrences),
fuelled by the length of the subject list. -/
def replaceList (pat rep : List Char) : Nat → List Char → List Char
  | 0, l => l
  | _ + 1, [] => []
  | fuel + 1, x :: xs =>
    if pat.isPrefixOf (x :: xs) then
      rep ++ replaceList pat rep fuel ((x :: xs).drop pat.length)
    else
      x :: replaceList pat rep fuel xs

/-- String-level wrapper for `replaceList`. -/
def strReplace (s pat rep : String) : String :=
  (replaceList pat.data rep.data s.data.length s.data).asString

/-- Occurrence count helper for substring containment, fuelled split on a
multi-character separator. -/
def splitOnSubList (pat : List Char) : Nat → List Char → List (List Char)
  | 0, l => [l]
  | _ + 1, [] => [[]]
  | fuel + 1, x :: xs =>
    if pat ≠ [] ∧ pat.isPrefixOf (x :: xs) then
      [] :: splitOnSubList pat fuel ((x :: xs).drop pat.length)
    else
      match splitOnSubList pat fuel xs with
      | r :: rs => (x :: r) :: rs
      | [] => [[x]]

/-- Embedding of Python `sub in s` (substring containment test). -/
def containsSub (s sub : String) : Bool :=
  (splitOnSubList sub.data s.data.length s.data).length != 1

/-! ### Decimal rendering of naturals

Embedding of Python `str(i)` for a non-negative integer, used in f-strings
such as `f"{exp}{i}"` and `f"device{pixel}"`.  Defined with explicit fuel so
it reduces in the kernel; proved injective via `Nat.digits`. -/

/-- Little-endian decimal digits of `n`, fuelled. -/
def digitsLE : Nat → Nat → List Nat
  | 0, _ => []
  | fuel + 1, n => if n = 0 then [] else n % 10 :: digitsLE fuel (n / 10)

/-- Decimal string for a natural number, as Python `str(i)` renders it. -/
def natRepr (n : Nat) : String :=
  if n = 0 then "0" else ((digitsLE n n).map Nat.digitChar).reverse.asString

theorem digitsLE_eq_digits : ∀ fuel n, n ≤ fuel → digitsLE fuel n = Nat.digits 10 n := by
  intro fuel
  induction fuel with
  | zero =>
    intro n hn
    have h0 : n = 0 := Nat.le_zero.mp hn
    simp [h0, digitsLE]
  | succ f ih =>
    intro n hn
    by_cases h0 : n = 0
    · simp [h0, digitsLE]
    · rw [digitsLE, if_neg h0, Nat.digits_def' (by norm_num : 1 < 10) (Nat.pos_of_ne_zero h0)]
      have hdiv : n / 10 ≤ f := by
        have := Nat.div_lt_self (Nat.pos_of_ne_zero h0) (by norm_num : 1 < 10)
        omega
      rw [ih (n / 10) hdiv]

theorem digitChar_inj_lt10 : ∀ a b : Nat, a < 10 → b < 10 →
    Nat.digitChar a = Nat.digitChar b → a = b := by
  have key : ∀ a : Fin 10, ∀ b : Fin 10,
      Nat.digitChar a.val = Nat.digitChar b.val → a = b := by decide
  intro a b ha hb h
  exact congrArg Fin.val (key ⟨a, ha⟩ ⟨b, hb⟩ h)

theorem map_digitChar_inj : ∀ (L M : List Nat), (∀ d ∈ L, d < 10) → (∀ d ∈ M, d < 10) →
    L.map Nat.digitChar = M.map Nat.digitChar → L = M := by
  intro L
  induction L with
  | nil =>
    intro M _ _ h
    cases M with
    | nil => rfl
    | cons m ms => simp at h
  | cons d ds ih =>
    intro M hL hM h
    cases M with
    | nil => simp at h
    | cons m ms =>
      simp only [List.map_cons, List.cons.injEq] at h
      have hd : d = m :=
        digitChar_inj_lt10 d m (hL d (List.mem_cons_self d ds)) (hM m (List.mem_cons_self m ms)) h.1
      have hds : ds = ms :=
        ih ms (fun x hx => hL x (List.mem_cons_of_mem d hx))
          (fun x hx => hM x (List.mem_cons_of_mem m hx)) h.2
      rw [hd, hds]

theorem asString_injective : Function.Injective List.asString := by
  intro a b h
  have h2 : (List.asString a).data = (List.asString b).data := congrArg String.data h
  simpa [List.asString] using h2

theorem natRepr_ne_zero_digits {n : Nat} (hn : n ≠ 0) (h : natRepr n = "0") : False := by
  rw [natRepr, if_neg hn] at h
  have h1 : ((digitsLE n n).map Nat.digitChar).reverse = "0".data := by
    have := congrArg String.data h
    simpa [List.asString] using this
  rw [digitsLE_eq_digits n n (Nat.le_refl n)] at h1
  have h2 : (Nat.digits 10 n).map Nat.digitChar = ['0'] := by
    have := congrArg List.reverse h1
    simpa using this
  -- so digits 10 n = [d] with digitChar d = '0'
  cases hgen : Nat.digits 10 n with
  | nil => rw [hgen] at h2; simp at h2
  | cons d L =>
    rw [hgen] at h2
    simp only [List.map_cons, List.cons.injEq] at h2
    have hL : L = [] := by
      have := congrArg List.length h2.2
      simpa using List.length_eq_zero.mp (by simpa using this)
    have hd10 : d < 10 := Nat.digits_lt_base (by norm_num) (hgen ▸ List.mem_cons_self d L)
    have hd0 : d = 0 := digitChar_inj_lt10 d 0 hd10 (by norm_num) (by simpa [Nat.digitChar] using h2.1)
    have hofd := Nat.ofDigits_digits 10 n
    rw [hgen, hL, hd0] at hofd
    simp [Nat.ofDigits] at hofd
    exact hn hofd.symm

theorem natRepr_injective : Function.Injective natRepr := by
  intro a b h
  by_cases ha : a = 0 <;> by_cases hb : b = 0
  · exact ha.trans hb.symm
  · exact absurd (by rw [← h, natRepr, if_pos ha]) (fun hh => natRepr_ne_zero_digits hb hh)
  · exact absurd (by rw [h, natRepr, if_pos hb]) (fun hh => natRepr_ne_zero_digits ha hh)
  · rw [natRepr, if_neg ha, natRepr, if_neg hb] at h
    have h1 := congrArg List.reverse (asString_injective h)
    simp only [List.reverse_reverse] at h1
    rw [digitsLE_eq_digits a a (Nat.le_refl a), digitsLE_eq_digits b b (Nat.le_refl b)] at h1
    have h2 : Nat.digits 10 a = Nat.digits 10 b :=
      map_digitChar_inj _ _ (fun d hd => Nat.digits_lt_base (by norm_num) hd)
        (fun d hd => Nat.digits_lt_base (by norm_num) hd) h1
    exact Nat.digits.injective 10 h2

/-! ### Header strings (`Saver.__init__`) -/

/-- `eqe_header_items` from `Saver.__init__`. -/
def eqe_header_items : List String :=
  ["timestamp (s)", "wavelength (nm)", "X (V)", "Y (V)", "Aux In 1 (V)", "Aux In 2 (V)",
   "Aux In 3 (V)", "Aux In 4 (V)", "R (V)", "Phase (deg)", "Freq (Hz)", "Ch1 display",
   "Ch2 display"]

/-- `self.eqe_header = "\t".join(eqe_header_items) + "\n"`. -/
def eqe_header : String := String.intercalate "\t" eqe_header_items ++ "\n"

/-- `self.iv_header`. -/
def iv_header : String := "voltage (v)\tcurrent (A)\ttime (s)\tstatus\n"

/-- `self.spectrum_cal_header`. -/
def spectrum_cal_header : String := "wls (nm)\traw (counts)\n"

/-- `self.psu_cal_header = self.iv_header[:-1] + "\tset_psu_current (A)\n"`. -/
def psu_cal_header : String := iv_header.dropRight 1 ++ "\tset_psu_current (A)\n"

/-- `self.daq_header`. -/
def daq_header : String := "timestamp (s)\tT (degC)\tIntensity (V)\n"

/-! ### Filesystem model

The working directory's state, as the saver observes and mutates it: an
association list from path strings to file contents, plus the set of
directories that exist.  `Path.exists()` in the source is true for both files
and directories, so existence checks consult both. -/

/-- An opaque value from the run-argument mapping: either a scalar setting or
a device/pixel selection table object. -/
inductive ArgVal where
  | scalar (s : String)
  | table (rows : List (List String))
deriving DecidableEq

/-- Contents of a file the saver writes. Data and calibration files are lines
of text; the YAML dumps and the pandas CSV dumps are kept structured so that
theorems can inspect what was persisted. -/
inductive FileData where
  | text (lines : List String)
  | yamlArgs (entries : List (String × ArgVal))
  | yamlConfig (cfg : String)
  | csvTable (v : ArgVal)
deriving DecidableEq

/-- Appending lines to a file's content (Python `open(path, "a")` + writes on
a file the saver itself created as text). -/
def FileData.appendText (d : FileData) (ls : List String) : FileData :=
  match d with
  | .text old => .text (old ++ ls)
  | other => other

/-- The observable filesystem. -/
structure FS where
  files : List (String × FileData)
  dirs : List String
deriving DecidableEq

/-- Does a file exist at `p`? -/
def FS.fileExists (fs : FS) (p : String) : Bool :=
  fs.files.any (fun e => e.1 == p)

/-- Does a directory exist at `p`? -/
def FS.dirExists (fs : FS) (p : String) : Bool :=
  fs.dirs.any (fun d => d == p)

/-- `pathlib.Path(p).exists()`: true for files and directories alike. -/
def FS.pathExists (fs : FS) (p : String) : Bool :=
  fs.fileExists p || fs.dirExists p

/-- Contents of the file at `p`, if one exists. -/
def FS.lookup (fs : FS) (p : String) : Option FileData :=
  (fs.files.find? (fun e => e.1 == p)).map Prod.snd

/-- Create a directory (state change of a successful `mkdir`). -/
def FS.mkdir (fs : FS) (d : String) : FS :=
  { fs with dirs := d :: fs.dirs }

/-- `mkdir(exist_ok=True)`: create the directory unless it is already there. -/
def FS.mkdirOk (fs : FS) (d : String) : FS :=
  if fs.dirExists d then fs else fs.mkdir d

/-- Record a newly created file (the caller has already established that the
path is free, matching the guarded `open(path, "x")` uses in the source). -/
def FS.addFile (fs : FS) (p : String) (d : FileData) : FS :=
  { fs with files := (p, d) :: fs.files }

/-- Append text lines to the file at `p` (Python `open(p, "a")`), creating an
empty text file first when none exists. -/
def FS.appendLines (fs : FS) (p : String) (ls : List String) : FS :=
  if fs.fileExists p then
    { fs with files := appendAt fs.files }
  else
    { fs with files := (p, .text ls) :: fs.files }
where
  appendAt : List (String × FileData) → List (String × FileData)
    | [] => []
    | e :: es => if e.1 == p then (e.1, e.2.appendText ls) :: es else e :: appendAt es

/-! ### Saver state and results -/

/-- Errors that surface as Python exceptions inside the save operations; the
dispatch loop's `except` boundary catches them. -/
inductive SaveErr where
  | fileExistsErr
  | indexError
  | keyError
  | valueError
deriving DecidableEq

/-- Log events the saver emits on the paths the claims mention. -/
inductive LogEvent where
  | warn (msg : String)
  | debug (msg : String)
  | info (msg : String)
deriving DecidableEq

/-- The mutable fields of the `Saver` object that the persistence logic
touches, plus the filesystem it acts on. -/
structure SaverState where
  folder : Option String
  exp_timestamp : Option String
  fs : FS
  backup_q : List String
  trigger_backup : Bool
  ftp_uri : Option String
deriving DecidableEq

/-- Result of one save operation: the state afterwards, the log events emitted
during it, and the exception it raised, if any (partial mutations before the
exception are kept, as in Python). -/
structure SaveResult where
  st : SaverState
  events : List LogEvent
  err : Option SaveErr
deriving DecidableEq

/-! ### `Saver.save_data` -/

/-- The `payload["pixel"]` object of a data record. -/
structure Pixel where
  label : String
  pixel : Nat
deriving DecidableEq

/-- A decoded data-record payload.  `pixel := none` models a payload whose
pixel fields are missing or malformed (the `except` branch of the `idn`
computation). -/
structure DataPayload where
  sweep : String
  pixel : Option Pixel
  data : List (List Int)
deriving DecidableEq

/-- File extension computation at the top of `save_data`: for
`iv_measurement` kinds the first character of the sweep is prepended and the
topic remainder after `/` is dropped; `_measurement` is erased. Raises
`IndexError` when the sweep string is empty (`payload["sweep"][0]`). -/
def expOf (payload : DataPayload) (kind : String) : Except SaveErr String :=
  if strStartsWith kind "iv_measurement" then
    if payload.sweep.data = [] then .error .indexError
    else .ok (payload.sweep.take 1 ++
      strReplace ((strSplitOn '/' kind).headD "") "_measurement" "")
  else .ok (strReplace kind "_measurement" "")

/-- `save_path_format = "{file_prefix}{idn}_{timestamp}.{exp}.tsv"` with the
always-empty file prefix of the raw path. -/
def fnameOf (idn ts exp : String) : String :=
  idn ++ "_" ++ ts ++ "." ++ exp ++ ".tsv"

/-- Fuel that bounds the `while True` suffix probe: one more than the number
of extant filesystem entries, so a free suffix is always reached. -/
def probeFuel (fs : FS) : Nat := fs.files.length + fs.dirs.length + 1

/-- The auto-increment loop for iv scan extensions: probe `exp1, exp2, …` and
return the first candidate whose target file does not exist. -/
def probeIvExt (fs : FS) (folder idn ts exp : String) : Nat → Nat → String
  | 0, i => exp ++ natRepr i
  | fuel + 1, i =>
    let testExp := exp ++ natRepr i
    if fs.pathExists (folder ++ "/" ++ fnameOf idn ts testExp) then
      probeIvExt fs folder idn ts exp fuel (i + 1)
    else testExp

/-- Header chosen when creating a new data file: `eqe` and `daq` have their
own headers, everything else falls back to the iv header. -/
def headerFor (exp : String) : String :=
  if exp == "eqe" then eqe_header else if exp == "daq" then daq_header else iv_header

/-- One data row as `csv.writer(f, delimiter="\t")` renders it. -/
def rowLine (r : List Int) : String := String.intercalate "\t" (r.map toString)

/-- Warnings emitted when data arrives with no run epoch. -/
def missedEpochEvents (t : String) : List LogEvent :=
  [.warn "New data with no epoch has appeared",
   .warn "Possibly because of a missed run start message",
   .warn ("Using new epoch: " ++ t)]

/-- Warnings emitted when data arrives with no target folder configured. -/
def missedFolderEvents (f : String) : List LogEvent :=
  [.warn "Target data folder unconfigured",
   .warn "Possibly because of a missed run start message",
   .warn ("New target folder configured: " ++ f)]

/-- Warnings emitted when the target folder is missing on disk and is
regenerated. -/
def regenFolderEvents : List LogEvent :=
  [.warn "Target data folder does not exist",
   .warn "Data folder disappeared mid-run or was not created properly on run start",
   .warn "Regenerating that folder now"]

/-- Tail of `save_data`: the backup-queue enqueue for newly created files and
the possible mid-backup warning. -/
def finishBackup (st : SaverState) (save_path : String) (new_file single_row : Bool)
    (ev : List LogEvent) : SaveResult :=
  if new_file && st.ftp_uri.isSome then
    let st' := { st with backup_q := st.backup_q ++ [save_path] }
    if single_row && st.trigger_backup then
      ⟨st', ev ++ [.warn ("An unfinished file may have been added to the backup queue during an active backup task: " ++ save_path)], none⟩
    else ⟨st', ev, none⟩
  else ⟨st, ev, none⟩

/-- Device identifier for the file name: `daq` records have no pixel data;
missing pixel information falls back to `unknown_deviceX`. -/
def idnOf (payload : DataPayload) (exp0 : String) : String :=
  if exp0 == "daq" then "daq"
  else
    match payload.pixel with
    | some px => px.label ++ "_device" ++ natRepr px.pixel
    | none => "unknown_deviceX"

/-- Body of `save_data` once the run context (epoch `ts`, folder) is fixed:
device id, suffix probing, exclusive-create with header, empty-payload debug
log, row append, and backup enqueue. -/
def write_record (payload : DataPayload) (exp0 ts folder : String) (st : SaverState) :
    SaveResult :=
  let idn := idnOf payload exp0
  let exp1 :=
    if strStartsWith exp0 "liv" || strStartsWith exp0 "div" then
      probeIvExt st.fs folder idn ts exp0 (probeFuel st.fs) 1
    else exp0
  let save_path := folder ++ "/" ++ fnameOf idn ts exp1
  let new_file := !(st.fs.pathExists save_path)
  let stA :=
    if new_file then { st with fs := st.fs.addFile save_path (.text [headerFor exp1]) }
    else st
  let evEmpty : List LogEvent := if payload.data = [] then [.debug "EMPTY PAYLOAD"] else []
  if strStartsWith exp1 "liv" || strStartsWith exp1 "div" then
    let stB := { stA with fs := stA.fs.appendLines save_path (payload.data.map rowLine) }
    finishBackup stB save_path new_file false evEmpty
  else
    match payload.data with
    | [] => ⟨stA, evEmpty, some .indexError⟩
    | r :: _ =>
      let stB := { stA with fs := stA.fs.appendLines save_path [rowLine r] }
      finishBackup stB save_path new_file true evEmpty

/-- `Saver.save_data`: compute the extension, default the missing run context
(synthesizing an epoch from the clock `now` when none is set), regenerate a
vanished run folder, then write the record. -/
def save_data (now : Nat) (payload : DataPayload) (kind : String) (st0 : SaverState) :
    SaveResult :=
  match expOf payload kind with
  | .error e => ⟨st0, [], some e⟩
  | .ok exp0 =>
    let tsSt :=
      match st0.exp_timestamp with
      | some t => (t, st0, ([] : List LogEvent))
      | none =>
        let t := natRepr now
        (t, { st0 with exp_timestamp := some t }, missedEpochEvents t)
    let ts := tsSt.1
    let st1 := tsSt.2.1
    let ev1 := tsSt.2.2
    let fSt :=
      match st1.folder with
      | some f => (f, st1, ([] : List LogEvent))
      | none => (ts, { st1 with folder := some ts }, missedFolderEvents ts)
    let folder := fSt.1
    let st2 := fSt.2.1
    let ev2 := fSt.2.2
    let rSt :=
      if st2.fs.pathExists folder then (st2, ([] : List LogEvent))
      else ({ st2 with fs := st2.fs.mkdir folder }, regenFolderEvents)
    let st3 := rSt.1
    let ev3 := rSt.2
    let r := write_record payload exp0 ts folder st3
    ⟨r.st, ev1 ++ ev2 ++ ev3 ++ r.events, r.err⟩

/-! ### `Saver.save_calibration` -/

/-- A decoded calibration payload. -/
structure CalPayload where
  timestamp : Nat
  diode : String
  data : List (List Int)
deriving DecidableEq

/-- Python `f"{extra}"` on an optional subtopic: `None` renders as `"None"`. -/
def extraStr : Option String → String
  | none => "None"
  | some s => s

/-- The target path and header of a calibration record, keyed on the
calibration kind exactly as the `if`/`elif` chain in `save_calibration` is;
`none` corresponds to `good_kind` staying `False`.  `hts` is the opaque
`datetime.fromtimestamp(...).strftime(...)` human-readable rendering. -/
def cal_target (hts : Nat → String) (payload : CalPayload) (kind : String)
    (extra : Option String) : Option (String × String) :=
  let h := hts payload.timestamp
  if kind == "eqe" then
    some ("calibration/" ++ h ++ "_" ++ payload.diode ++ "." ++ kind ++ ".cal.tsv", eqe_header)
  else if kind == "spectrum" then
    some ("calibration/" ++ h ++ "." ++ kind ++ ".cal.tsv", spectrum_cal_header)
  else if kind == "solarsim_diode" then
    some ("calibration/" ++ h ++ "_" ++ payload.diode ++ ".ss.cal.tsv", iv_header)
  else if kind == "rtd" then
    some ("calibration/" ++ h ++ "_" ++ payload.diode ++ "." ++ kind ++ ".cal.tsv", iv_header)
  else if kind == "psu" then
    some ("calibration/" ++ h ++ "_" ++ payload.diode ++ "_" ++ extraStr extra ++ "." ++
      kind ++ ".cal.tsv", psu_cal_header)
  else none

/-- `Saver.save_calibration`: make the `calibration` directory, resolve the
target by kind, and write header plus rows only when no file exists at the
target; an existing file or an unrecognized kind writes nothing. -/
def save_calibration (hts : Nat → String) (payload : CalPayload) (kind : String)
    (extra : Option String) (st0 : SaverState) : SaveResult :=
  let st := { st0 with fs := st0.fs.mkdirOk "calibration" }
  match cal_target hts payload kind extra with
  | none =>
    ⟨st, [.debug ("Not saving cal data because we do not understand its kind: " ++ kind)], none⟩
  | some (save_path, header) =>
    if st.fs.pathExists save_path then
      ⟨st, [.debug ("Not saving cal data because a file for it already exists: " ++ save_path)],
        none⟩
    else
      let fs1 := (st.fs.addFile save_path (FileData.text [header])).appendLines save_path
        (payload.data.map rowLine)
      let st1 := { st with fs := fs1 }
      if st1.ftp_uri.isSome then
        ⟨{ st1 with backup_q := st1.backup_q ++ [save_path] }, [], none⟩
      else ⟨st1, [], none⟩

/-! ### `Saver.save_run_settings` -/

/-- The decoded `payload["args"]` mapping of a run-start message.  The fields
the source reads by name are projected out; `entries` is the full mapping as
`yaml.dump` would serialize it (device-table keys included until deleted). -/
structure RunArgs where
  run_name : String
  run_name_suffix : String
  pixel_data_object_names : Option (List String)
  entries : List (String × ArgVal)
deriving DecidableEq

/-- A run-start settings payload: `{"args": …, "config": …}`. -/
structure RunPayload where
  args : RunArgs
  config : String
deriving DecidableEq

/-- Python dict lookup `entries[key]`. -/
def lookupEntry (entries : List (String × ArgVal)) (k : String) : Option ArgVal :=
  (entries.find? (fun e => e.1 == k)).map Prod.snd

/-- Python `del entries[key]`. -/
def eraseEntry (entries : List (String × ArgVal)) (k : String) : List (String × ArgVal) :=
  entries.filter (fun e => e.1 != k)

/-- CSV name selector: `"IV_"` when the key mentions IV, `"EQE_"` when it
mentions EQE, else empty. -/
def nameForKey (k : String) : String :=
  if containsSub k "IV" then "IV_" else if containsSub k "EQE" then "EQE_" else ""

/-- The device-table loop of `save_run_settings`: for each listed key, look
the table up (KeyError aborts), render and exclusively create its CSV
(`to_csv(..., mode="x")`), delete the key from the mapping, and enqueue the
CSV for backup.  `pixelCsv` opaquely models the pandas pipeline (DataFrame
construction, column whitelist, sentinel-area replacement, CSV encoding). -/
def processPixelKeys (pixelCsv : ArgVal → FileData) (ts folderName : String)
    (ftp : Option String) :
    List String → List (String × ArgVal) → FS → List String →
    (List (String × ArgVal) × FS × List String × Option SaveErr)
  | [], entries, fs, bq => (entries, fs, bq, none)
  | k :: ks, entries, fs, bq =>
    match lookupEntry entries k with
    | none => (entries, fs, bq, some .keyError)
    | some v =>
      let save_path := folderName ++ "/" ++ (nameForKey k ++ "pixel_setup_" ++ ts ++ ".csv")
      if fs.pathExists save_path then (entries, fs, bq, some .fileExistsErr)
      else
        let fs1 := fs.addFile save_path (pixelCsv v)
        let entries1 := eraseEntry entries k
        let bq1 := if ftp.isSome then bq ++ [save_path] else bq
        processPixelKeys pixelCsv ts folderName ftp ks entries1 fs1 bq1

/-- The tail of `save_run_settings` once the run folder name is decided:
exclusive `mkdir`, epoch assignment from `run_name_suffix`, device-table CSV
persistence, then the exclusive YAML dumps of the remaining args and of the
config, with backup enqueues. -/
def persist_run_files (pixelCsv : ArgVal → FileData) (payload : RunPayload)
    (folderName : String) (st1 : SaverState) (ev1 : List LogEvent) : SaveResult :=
  if st1.fs.pathExists folderName then ⟨st1, ev1, some .fileExistsErr⟩
  else
    let st2 := { st1 with fs := st1.fs.mkdir folderName }
    let ev2 := ev1 ++ [LogEvent.info ("Saver will save this run data into " ++ folderName)]
    let ts := payload.args.run_name_suffix
    let st3 := { st2 with exp_timestamp := some ts }
    let run_args_path := folderName ++ "/" ++ ("run_args_" ++ ts ++ ".yaml")
    let config_path := folderName ++ "/" ++ ("measurement_config_" ++ ts ++ ".yaml")
    let tables :=
      match payload.args.pixel_data_object_names with
      | some ks => processPixelKeys pixelCsv ts folderName st3.ftp_uri ks
          payload.args.entries st3.fs st3.backup_q
      | none => (payload.args.entries, st3.fs, st3.backup_q, none)
    match tables with
    | (_, fsT, bqT, some e) => ⟨{ st3 with fs := fsT, backup_q := bqT }, ev2, some e⟩
    | (entriesT, fsT, bqT, none) =>
      let st4 := { st3 with fs := fsT, backup_q := bqT }
      if st4.fs.pathExists run_args_path then ⟨st4, ev2, some .fileExistsErr⟩
      else
        let st5 := { st4 with fs := st4.fs.addFile run_args_path (.yamlArgs entriesT) }
        let st6 :=
          if st5.ftp_uri.isSome then { st5 with backup_q := st5.backup_q ++ [run_args_path] }
          else st5
        if st6.fs.pathExists config_path then ⟨st6, ev2, some .fileExistsErr⟩
        else
          let st7 := { st6 with fs := st6.fs.addFile config_path (.yamlConfig payload.config) }
          let st8 :=
            if st7.ftp_uri.isSome then { st7 with backup_q := st7.backup_q ++ [config_path] }
            else st7
          ⟨st8, ev2, none⟩

/-- `Saver.save_run_settings`: point the run context at the requested folder,
fall back to an epoch-prefixed name when it already exists on disk, then
persist the run's files via `persist_run_files`. -/
def save_run_settings (now : Nat) (pixelCsv : ArgVal → FileData) (payload : RunPayload)
    (st0 : SaverState) : SaveResult :=
  let run_folder := payload.args.run_name
  let stSet := { st0 with folder := some run_folder }
  let chosen :=
    if stSet.fs.pathExists run_folder then
      let nf := natRepr now ++ "_" ++ run_folder
      (nf, { stSet with folder := some nf },
       [LogEvent.warn ("Attempt to remake pre-existing run folder: " ++ run_folder),
        LogEvent.warn "Falling back to timestamp-named folder to prevent overwriting data."])
    else (run_folder, stSet, [])
  persist_run_files pixelCsv payload chosen.1 chosen.2.1 chosen.2.2

/-! ### `Saver.ftp_backup` (one drain-loop iteration) -/

/-- What one iteration of the inner drain loop did to its task. -/
inductive BackupEvent where
  | sent (p : String)
  | requeued (p : String)
  | droppedMissing (p : String)
deriving DecidableEq

/-- One iteration of the `while not self.backup_q.empty()` loop in
`ftp_backup`.  `fileOk` is `file_to_send.exists()` on disk at that moment and
`transfer` the success of `send_backup_file` (the opaque FTP upload).
Returns the queue afterwards, the event (with its warning already implied),
and whether the worker slept (`time.sleep(1)`) before the next attempt;
`none` when the queue is empty and the drain ends. -/
def ftp_backup_step (fileOk : String → Bool) (transfer : String → Bool) :
    List String → Option (List String × BackupEvent × Bool)
  | [] => none
  | p :: rest =>
    some (if fileOk p then
            if transfer p then (rest, .sent p, false)
            else (rest ++ [p], .requeued p, true)
          else (rest, .droppedMissing p, false))

/-! ### `Saver.save_handler` routing -/

/-- Where one topic string routes, mirroring the `if`/`elif` chain of
`save_handler`.  `malformed` covers index errors on the topic segments, which
the loop's `except` boundary turns into a logged warning. -/
inductive Route where
  | save_data_route (kind : String)
  | data_ignored (sub : String)
  | calibration_route (kind : String) (extra : Option String)
  | run_route
  | log_route
  | other_topic
  | malformed
deriving DecidableEq

/-- Topic routing of `save_handler`. -/
def routeOf (topic : String) : Route :=
  let topic_list := strSplitOn '/' topic
  let t0 := topic_list.headD ""
  if t0 == "data" then
    match topic_list.get? 1 with
    | none => .malformed
    | some sub =>
      if sub == "raw" then .save_data_route (strReplace topic "data/raw/" "")
      else .data_ignored sub
  else if t0 == "calibration" then
    match topic_list.get? 1 with
    | none => .malformed
    | some sub =>
      if sub == "psu" then
        match topic_list.get? 2 with
        | none => .malformed
        | some s1 => .calibration_route sub (some s1)
      else .calibration_route sub none
  else if topic == "measurement/run" then .run_route
  else if topic == "measurement/log" then .log_route
  else .other_topic

/-- A `measurement/run` payload: either it carries a `"rundata"` envelope
(whose digest field, if present, is an ASCII hex string), or it is the
settings payload directly. -/
structure RunData where
  digest : Option String
  rest : RunPayload
deriving DecidableEq

/-- The two shapes of a run-start message payload. -/
inductive RunMsg where
  | withEnvelope (rd : RunData)
  | plain (p : RunPayload)
deriving DecidableEq

/-- The `measurement/run` branch of `save_handler`.  `fromHex` opaquely models
`bytes.fromhex(digest.removeprefix("0x"))` (returning `none` on a hex parse
error) and `hmacD` the composite `hmac.digest(hk, json.dumps(rundata), "sha1")`
over the envelope with the digest entry popped; digests are compared as the
resulting byte strings. -/
def handle_run (now : Nat) (pixelCsv : ArgVal → FileData)
    (fromHex : String → Option String) (hmacD : RunPayload → String)
    (rm : RunMsg) (st : SaverState) : SaveResult :=
  match rm with
  | .plain p => save_run_settings now pixelCsv p st
  | .withEnvelope rd =>
    match rd.digest with
    | none => ⟨st, [], some .keyError⟩
    | some dhex =>
      match fromHex dhex with
      | none => ⟨st, [], some .valueError⟩
      | some remote =>
        if remote == hmacD rd.rest then save_run_settings now pixelCsv rd.rest st
        else ⟨st, [.warn "Malformed run data."], none⟩

/-- A decoded message payload, as the JSON decode in `save_handler` produces
it for each topic family. -/
inductive InPayload where
  | dataP (p : DataPayload)
  | calP (p : CalPayload)
  | runP (rm : RunMsg)
  | logP (msg : String)
deriving DecidableEq

/-- A message pulled off the internal save queue. -/
structure InMessage where
  topic : String
  payload : InPayload
deriving DecidableEq

/-- The per-message `except` boundary of `save_handler`: an exception from a
save operation becomes a logged warning and the loop continues with whatever
partial state the operation left behind. -/
def boundary (r : SaveResult) : SaveResult :=
  match r.err with
  | none => r
  | some _ => ⟨r.st, r.events ++ [.warn "Data save issue"], r.err⟩

/-- One iteration of the `save_handler` dispatch loop on a decoded message:
route by topic and dispatch to the corresponding save operation.  A payload
whose shape does not match its topic raises inside the handler and is caught
by the boundary. -/
def save_handler_step (now : Nat) (hts : Nat → String) (pixelCsv : ArgVal → FileData)
    (fromHex : String → Option String) (hmacD : RunPayload → String)
    (msg : InMessage) (st : SaverState) : SaveResult :=
  match routeOf msg.topic, msg.payload with
  | .save_data_route kind, .dataP p => boundary (save_data now p kind st)
  | .data_ignored sub, _ =>
    ⟨st, [.debug ("Saver not acting on data subtopic: " ++ sub)], none⟩
  | .calibration_route kind extra, .calP p => boundary (save_calibration hts p kind extra st)
  | .run_route, .runP rm => boundary (handle_run now pixelCsv fromHex hmacD rm st)
  | .log_route, .logP m =>
    if m == "Run complete!" && st.ftp_uri.isSome then
      ⟨{ st with trigger_backup := true },
       [.info "Saver noticed a run completion. Triggering a backup task."], none⟩
    else ⟨st, [], none⟩
  | .other_topic, _ => ⟨st, [.debug ("Saver not acting on topic: " ++ msg.topic)], none⟩
  | .malformed, _ => ⟨st, [.warn "Data save issue"], none⟩
  | _, _ => ⟨st, [.warn "Data save issue"], none⟩

/-! ### Filesystem lemmas -/

theorem FS.fileExists_iff_lookup_isSome (fs : FS) (p : String) :
    fs.fileExists p = (fs.lookup p).isSome := by
  unfold FS.fileExists FS.lookup
  induction fs.files with
  | nil => rfl
  | cons e es ih =>
    simp only [List.any_cons, List.find?]
    cases h : (e.1 == p)
    · simpa [h] using ih
    · simp [h]

theorem FS.lookup_addFile_self (fs : FS) (p : String) (c : FileData) :
    (fs.addFile p c).lookup p = some c := by
  simp [FS.addFile, FS.lookup, List.find?]

theorem FS.lookup_addFile_ne (fs : FS) (p q : String) (c : FileData) (h : q ≠ p) :
    (fs.addFile p c).lookup q = fs.lookup q := by
  simp only [FS.addFile, FS.lookup, List.find?]
  rw [show (p == q) = false by simpa using fun hh => h hh.symm]

theorem FS.fileExists_addFile (fs : FS) (p q : String) (c : FileData) :
    (fs.addFile p c).fileExists q = ((p == q) || fs.fileExists q) := by
  simp [FS.addFile, FS.fileExists]

theorem FS.dirs_addFile (fs : FS) (p : String) (c : FileData) :
    (fs.addFile p c).dirs = fs.dirs := rfl

theorem FS.pathExists_addFile (fs : FS) (p q : String) (c : FileData) :
    (fs.addFile p c).pathExists q = ((p == q) || fs.pathExists q) := by
  unfold FS.pathExists
  rw [FS.fileExists_addFile, show (fs.addFile p c).dirExists q = fs.dirExists q from rfl,
    Bool.or_assoc]

theorem FS.files_mkdir (fs : FS) (d : String) : (fs.mkdir d).files = fs.files := rfl

theorem FS.dirExists_mkdir (fs : FS) (d p : String) :
    (fs.mkdir d).dirExists p = ((d == p) || fs.dirExists p) := by
  simp [FS.mkdir, FS.dirExists]

theorem FS.pathExists_mkdir (fs : FS) (d p : String) :
    (fs.mkdir d).pathExists p = ((d == p) || fs.pathExists p) := by
  unfold FS.pathExists
  rw [show (fs.mkdir d).fileExists p = fs.fileExists p from rfl, FS.dirExists_mkdir]
  cases fs.fileExists p <;> cases (d == p) <;> simp

theorem FS.files_mkdirOk (fs : FS) (d : String) : (fs.mkdirOk d).files = fs.files := by
  unfold FS.mkdirOk
  split <;> rfl

theorem FS.lookup_mkdir (fs : FS) (d p : String) : (fs.mkdir d).lookup p = fs.lookup p := rfl

theorem FS.lookup_mkdirOk (fs : FS) (d p : String) : (fs.mkdirOk d).lookup p = fs.lookup p := by
  unfold FS.mkdirOk
  split <;> rfl

theorem FS.fileExists_mkdirOk (fs : FS) (d p : String) :
    (fs.mkdirOk d).fileExists p = fs.fileExists p := by
  unfold FS.mkdirOk
  split <;> rfl

theorem FS.pathExists_mkdirOk_ne (fs : FS) (d p : String) (h : p ≠ d) :
    (fs.mkdirOk d).pathExists p = fs.pathExists p := by
  unfold FS.mkdirOk
  split
  · rfl
  · rw [FS.pathExists_mkdir, show (d == p) = false by simpa using fun hh => h hh.symm]
    simp

theorem FS.appendLines_of_not_fileExists (fs : FS) (p : String) (ls : List String)
    (h : fs.fileExists p = false) : fs.appendLines p ls = fs.addFile p (.text ls) := by
  unfold FS.appendLines
  rw [h]
  rfl

theorem FS.appendAt_of_head (p : String) (ls : List String) (c : FileData)
    (es : List (String × FileData)) :
    FS.appendLines.appendAt p ls ((p, c) :: es) = (p, c.appendText ls) :: es := by
  unfold FS.appendLines.appendAt
  simp

theorem FS.addFile_appendLines_same (fs : FS) (p : String) (h : String) (ls : List String) :
    (fs.addFile p (.text [h])).appendLines p ls = fs.addFile p (.text (h :: ls)) := by
  unfold FS.appendLines
  rw [show (fs.addFile p (FileData.text [h])).fileExists p = true by
    rw [FS.fileExists_addFile]; simp]
  show ({ fs.addFile p (FileData.text [h]) with
    files := FS.appendLines.appendAt p ls (fs.addFile p (FileData.text [h])).files } : FS) = _
  rw [show (fs.addFile p (FileData.text [h])).files = (p, FileData.text [h]) :: fs.files from rfl,
    FS.appendAt_of_head]
  rfl

theorem FS.lookup_appendLines_ne (fs : FS) (p q : String) (ls : List String) (h : q ≠ p) :
    (fs.appendLines p ls).lookup q = fs.lookup q := by
  unfold FS.appendLines
  split
  · simp only [FS.lookup]
    congr 1
    induction fs.files with
    | nil => rfl
    | cons e es ih =>
      unfold FS.appendLines.appendAt
      by_cases he : e.1 = p
      · rw [if_pos (by simpa using he)]
        simp only [List.find?]
        rw [show (e.1 == q) = false by simpa [he] using fun hh => h hh.symm]
      · rw [if_neg (by simpa using he)]
        simp only [List.find?]
        cases hq : (e.1 == q) <;> simp [hq, ih]
  · simp only [FS.lookup, List.find?]
    rw [show (p == q) = false by simpa using fun hh => h hh.symm]

theorem FS.dirs_appendLines (fs : FS) (p : String) (ls : List String) :
    (fs.appendLines p ls).dirs = fs.dirs := by
  unfold FS.appendLines
  split <;> rfl

theorem FS.appendAt_length (p : String) (ls : List String) (es : List (String × FileData)) :
    (FS.appendLines.appendAt p ls es).length = es.length := by
  induction es with
  | nil => rfl
  | cons e es ih =>
    unfold FS.appendLines.appendAt
    split <;> simp [ih]

/-! ### Shared concrete fixtures for witnesses and counterexamples -/

/-- A small concrete saver state: run folder `r`, epoch `T`, empty disk apart
from the run directory, no FTP backup configured. -/
def stW : SaverState :=
  { folder := some "r", exp_timestamp := some "T", fs := ⟨[], ["r"]⟩,
    backup_q := [], trigger_backup := false, ftp_uri := none }

/-- A small concrete data payload: a light sweep for device 1 of `d1` with a
single data row. -/
def plW : DataPayload := { sweep := "light", pixel := some ⟨"d1", 1⟩, data := [[0, 1]] }

/-- A trivial stand-in for the opaque pandas CSV rendering. -/
def pixelCsvW : ArgVal → FileData := fun v => .csvTable v

/-- A trivial stand-in for the opaque human timestamp rendering. -/
def htsW : Nat → String := fun n => natRepr n

/-! ### Claim C3 -/

/-- C3: the backup worker removes a queued task permanently only after a
successful transfer; a failed transfer re-appends the same task to the tail
of the queue and the worker pauses (sleeps) before the next attempt; the only
path that discards a task without a successful transfer is a missing source
file, which is dropped with a warning event. -/
theorem backup_task_never_silently_discarded (fileOk transfer : String → Bool)
    (p : String) (rest : List String) :
    (fileOk p = true → transfer p = true →
      ftp_backup_step fileOk transfer (p :: rest) = some (rest, .sent p, false)) ∧
    (fileOk p = true → transfer p = false →
      ftp_backup_step fileOk transfer (p :: rest) = some (rest ++ [p], .requeued p, true)) ∧
    (fileOk p = false →
      ftp_backup_step fileOk transfer (p :: rest) = some (rest, .droppedMissing p, false)) := by
  refine ⟨fun h1 h2 => ?_, fun h1 h2 => ?_, fun h1 => ?_⟩ <;>
    simp [ftp_backup_step, h1] <;> simp [h2]

/-- Witness: a failing transfer on a two-element queue requeues the head at
the tail and pauses. -/
theorem backup_task_never_silently_discarded_witness :
    ftp_backup_step (fun _ => true) (fun _ => false) ["a.tsv", "b.tsv"] =
      some (["b.tsv", "a.tsv"], .requeued "a.tsv", true) :=
  (backup_task_never_silently_discarded (fun _ => true) (fun _ => false)
    "a.tsv" ["b.tsv"]).2.1 rfl rfl

/-! ### Claim C1 -/

/-- C1: a run-start bundle that carries a digest is rejected wholesale when
the recomputed keyed digest differs from the supplied one — run context,
filesystem and backup queue are all left unchanged, only a warning is logged
— and `save_run_settings` is invoked exactly when the recomputed digest
equals the supplied one. -/
theorem run_digest_mismatch_rejects_bundle (now : Nat) (pixelCsv : ArgVal → FileData)
    (fromHex : String → Option String) (hmacD : RunPayload → String)
    (rd : RunData) (st : SaverState) (dhex remote : String)
    (hd : rd.digest = some dhex) (hhex : fromHex dhex = some remote) :
    (remote ≠ hmacD rd.rest →
      handle_run now pixelCsv fromHex hmacD (.withEnvelope rd) st =
        ⟨st, [.warn "Malformed run data."], none⟩) ∧
    (remote = hmacD rd.rest →
      handle_run now pixelCsv fromHex hmacD (.withEnvelope rd) st =
        save_run_settings now pixelCsv rd.rest st) := by
  constructor <;> intro h <;> simp [handle_run, hd, hhex, h]

/-- Witness: a concrete envelope whose stored digest decodes to a byte string
different from the recomputed one is rejected with the state untouched. -/
theorem run_digest_mismatch_rejects_bundle_witness :
    handle_run 0 pixelCsvW (fun _ => some "aa") (fun _ => "bb")
      (.withEnvelope ⟨some "0xaa", ⟨⟨"r2", "T", none, []⟩, "cfg"⟩⟩) stW =
      ⟨stW, [.warn "Malformed run data."], none⟩ :=
  (run_digest_mismatch_rejects_bundle 0 pixelCsvW (fun _ => some "aa") (fun _ => "bb")
    ⟨some "0xaa", ⟨⟨"r2", "T", none, []⟩, "cfg"⟩⟩ stW "0xaa" "aa" rfl rfl).1 (by decide)

/-! ### Claim C6 -/

theorem cal_target_length {hts : Nat → String} {payload : CalPayload} {kind : String}
    {extra : Option String} {p hd : String}
    (htgt : cal_target hts payload kind extra = some (p, hd)) : 12 ≤ p.length := by
  have h12 : ("calibration/" : String).length = 12 := rfl
  simp only [cal_target] at htgt
  split_ifs at htgt
  all_goals first
    | exact Option.noConfusion htgt
    | (rw [Option.some.injEq, Prod.mk.injEq] at htgt
       obtain ⟨hp, _⟩ := htgt
       subst hp
       simp only [String.length_append]
       rw [h12]
       omega)

theorem cal_target_ne_caldir {hts : Nat → String} {payload : CalPayload} {kind : String}
    {extra : Option String} {p hd : String}
    (htgt : cal_target hts payload kind extra = some (p, hd)) : p ≠ "calibration" := by
  intro hp
  have h2 := cal_target_length htgt
  rw [hp, show ("calibration" : String).length = 11 from rfl] at h2
  omega

/-- C6: a calibration record whose resolved target file already exists writes
nothing — the file table is unchanged and nothing is enqueued for backup —
while a record whose target does not yet exist creates the file with its
header followed by the data rows. -/
theorem calibration_existing_file_untouched (hts : Nat → String) (payload : CalPayload)
    (kind : String) (extra : Option String) (st : SaverState) (p hd : String)
    (htgt : cal_target hts payload kind extra = some (p, hd)) :
    (st.fs.pathExists p = true →
      (save_calibration hts payload kind extra st).st.fs.files = st.fs.files ∧
      (save_calibration hts payload kind extra st).st.backup_q = st.backup_q ∧
      (save_calibration hts payload kind extra st).err = none) ∧
    (st.fs.pathExists p = false →
      (save_calibration hts payload kind extra st).st.fs.lookup p =
        some (.text (hd :: payload.data.map rowLine))) := by
  have hne : p ≠ "calibration" := cal_target_ne_caldir htgt
  have hpe := FS.pathExists_mkdirOk_ne st.fs "calibration" p hne
  constructor <;> intro hex
  · simp [save_calibration, htgt, hpe, hex, FS.files_mkdirOk]
  · have hadd := FS.addFile_appendLines_same (st.fs.mkdirOk "calibration") p hd
      (payload.data.map rowLine)
    simp only [save_calibration, htgt, hpe, hex, Bool.false_eq_true, if_false, hadd]
    split <;> simp only [FS.lookup_addFile_self]

/-- Witness: submitting the same spectrum calibration twice — the second
submission, seeing the file on disk, changes neither the files nor the backup
queue; and on the fresh state the file is created with header plus rows. -/
theorem calibration_existing_file_untouched_witness :
    ((stW.fs.pathExists "calibration/0.spectrum.cal.tsv" = false) ∧
      (save_calibration htsW ⟨0, "D", [[5, 6]]⟩ "spectrum" none stW).st.fs.lookup
        "calibration/0.spectrum.cal.tsv" =
        some (.text [spectrum_cal_header, "5\t6"])) := by
  refine ⟨by decide, ?_⟩
  have := (calibration_existing_file_untouched htsW ⟨0, "D", [[5, 6]]⟩ "spectrum" none stW
    "calibration/0.spectrum.cal.tsv" spectrum_cal_header (by decide)).2 (by decide)
  simpa using this

/-! ### Claim C8 -/

/-- C8 counterexample: a message on `data/processed/vt_measurement` is routed
to the ignore branch, not to the record writer — the dispatch step leaves the
state unchanged and only logs a debug line, so processed data-domain messages
are not persisted. -/
theorem processed_data_message_dropped_cex :
    routeOf "data/processed/vt_measurement" = .data_ignored "processed" ∧
    save_handler_step 0 htsW pixelCsvW (fun _ => none) (fun _ => "")
      ⟨"data/processed/vt_measurement", .dataP plW⟩ stW =
      ⟨stW, [.debug "Saver not acting on data subtopic: processed"], none⟩ := by
  constructor <;> rfl

/-- C8 amended: the dispatch loop persists only `data/raw/…` messages; any
other data subtopic — `processed` included — is logged and dropped with the
whole saver state (filesystem, run context, backup queue) unchanged. -/
theorem processed_data_messages_ignored (now : Nat) (hts : Nat → String)
    (pixelCsv : ArgVal → FileData) (fromHex : String → Option String)
    (hmacD : RunPayload → String) (msg : InMessage) (st : SaverState) (sub : String)
    (h : routeOf msg.topic = .data_ignored sub) :
    save_handler_step now hts pixelCsv fromHex hmacD msg st =
      ⟨st, [.debug ("Saver not acting on data subtopic: " ++ sub)], none⟩ := by
  cases hp : msg.payload <;> simp [save_handler_step, h, hp]

/-- Witness: a concrete processed EQE message is dropped unchanged. -/
theorem processed_data_messages_ignored_witness :
    save_handler_step 0 htsW pixelCsvW (fun _ => none) (fun _ => "")
      ⟨"data/processed/eqe_measurement", .dataP plW⟩ stW =
      ⟨stW, [.debug ("Saver not acting on data subtopic: " ++ "processed")], none⟩ :=
  processed_data_messages_ignored 0 htsW pixelCsvW (fun _ => none) (fun _ => "")
    ⟨"data/processed/eqe_measurement", .dataP plW⟩ stW "processed" (by rfl)

/-! ### Claim C9 -/

theorem strStartsWith_append (s r pre : String) (h : strStartsWith s pre = true) :
    strStartsWith (s ++ r) pre = true := by
  unfold strStartsWith at h ⊢
  rw [List.isPrefixOf_iff_prefix] at h ⊢
  have hd : (s ++ r).data = s.data ++ r.data := rfl
  rw [hd]
  exact h.trans (List.prefix_append _ _)

theorem probeIvExt_shape (fs : FS) (folder idn ts exp : String) :
    ∀ fuel i, ∃ j, probeIvExt fs folder idn ts exp fuel i = exp ++ natRepr j := by
  intro fuel
  induction fuel with
  | zero => intro i; exact ⟨i, rfl⟩
  | succ f ih =>
    intro i
    simp only [probeIvExt]
    split
    · exact ih (i + 1)
    · exact ⟨i, rfl⟩

theorem save_data_decomp (now : Nat) (payload : DataPayload) (kind : String)
    (st : SaverState) (exp0 : String) (hexp : expOf payload kind = .ok exp0) :
    ∃ ts folder st3 ev,
      save_data now payload kind st =
        ⟨(write_record payload exp0 ts folder st3).st,
         ev ++ (write_record payload exp0 ts folder st3).events,
         (write_record payload exp0 ts folder st3).err⟩ := by
  unfold save_data
  rw [hexp]
  exact ⟨_, _, _, _, rfl⟩

theorem finishBackup_err (st : SaverState) (p : String) (nf sr : Bool) (ev : List LogEvent) :
    (finishBackup st p nf sr ev).err = none := by
  unfold finishBackup
  split
  · split <;> rfl
  · rfl

theorem finishBackup_events_mem (st : SaverState) (p : String) (nf sr : Bool)
    (ev : List LogEvent) (x : LogEvent) (hx : x ∈ ev) :
    x ∈ (finishBackup st p nf sr ev).events := by
  unfold finishBackup
  split
  · split
    · exact List.mem_append_left _ hx
    · exact hx
  · exact hx

theorem write_record_empty (payload : DataPayload) (exp0 ts folder : String)
    (st : SaverState) (hdata : payload.data = []) :
    (.debug "EMPTY PAYLOAD") ∈ (write_record payload exp0 ts folder st).events ∧
    ((strStartsWith exp0 "liv" || strStartsWith exp0 "div") = true →
      (write_record payload exp0 ts folder st).err = none) ∧
    ((strStartsWith exp0 "liv" || strStartsWith exp0 "div") = false →
      (write_record payload exp0 ts folder st).err = some .indexError) := by
  cases hc : (strStartsWith exp0 "liv" || strStartsWith exp0 "div") with
  | true =>
    obtain ⟨j, hj⟩ := probeIvExt_shape st.fs folder (idnOf payload exp0) ts exp0
      (probeFuel st.fs) 1
    have hc1 : (strStartsWith (probeIvExt st.fs folder (idnOf payload exp0) ts exp0
        (probeFuel st.fs) 1) "liv" ||
        strStartsWith (probeIvExt st.fs folder (idnOf payload exp0) ts exp0
          (probeFuel st.fs) 1) "div") = true := by
      rw [hj]
      rcases Bool.or_eq_true_iff.mp hc with h | h
      · rw [strStartsWith_append _ _ _ h]; rfl
      · rw [strStartsWith_append _ _ _ h, Bool.or_true]
    refine ⟨?_, fun _ => ?_, fun hf => Bool.noConfusion hf⟩
    · simp only [write_record, hc, hc1, if_true, hdata]
      refine finishBackup_events_mem _ _ _ _ _ _ ?_
      simp
    · simp only [write_record, hc, hc1, if_true]
      exact finishBackup_err _ _ _ _ _
  | false =>
    refine ⟨?_, fun ht => Bool.noConfusion ht, fun _ => ?_⟩
    · simp [write_record, hc, hdata]
    · simp [write_record, hc, hdata]

/-- C9 counterexample: a valid scalar-sample record (kind `vt_measurement`)
with an empty row set does not complete without error — the single-row append
indexes into the empty list and raises, so the write fails for scalar kinds. -/
theorem empty_rowset_scalar_raises_cex :
    (save_data 0 { sweep := "light", pixel := some ⟨"d1", 1⟩, data := [] }
      "vt_measurement" stW).err = some .indexError := by rfl

/-- C9 amended: an empty row set is always logged (`EMPTY PAYLOAD` debug); for
sweep kinds (extension starting `liv`/`div`) the whole (empty) row batch is
appended and the operation completes without error, but for scalar-sample
kinds the single-row append raises an index error that propagates to the
dispatch loop's per-message boundary. -/
theorem empty_rowset_logged_not_error_only_for_sweeps (now : Nat) (payload : DataPayload)
    (kind : String) (st : SaverState) (exp0 : String)
    (hexp : expOf payload kind = .ok exp0) (hdata : payload.data = []) :
    (.debug "EMPTY PAYLOAD") ∈ (save_data now payload kind st).events ∧
    ((strStartsWith exp0 "liv" || strStartsWith exp0 "div") = true →
      (save_data now payload kind st).err = none) ∧
    ((strStartsWith exp0 "liv" || strStartsWith exp0 "div") = false →
      (save_data now payload kind st).err = some .indexError) := by
  obtain ⟨ts, folder, st3, ev, heq⟩ := save_data_decomp now payload kind st exp0 hexp
  rw [heq]
  obtain ⟨hmem, hok, herr⟩ := write_record_empty payload exp0 ts folder st3 hdata
  exact ⟨List.mem_append_right _ hmem, hok, herr⟩

/-- Witness: an empty light iv sweep completes without error while logging the
empty payload, per the amended claim. -/
theorem empty_rowset_logged_not_error_only_for_sweeps_witness :
    (.debug "EMPTY PAYLOAD") ∈ (save_data 0
      { sweep := "light", pixel := some ⟨"d1", 1⟩, data := [] }
      "iv_measurement/1" stW).events ∧
    (save_data 0 { sweep := "light", pixel := some ⟨"d1", 1⟩, data := [] }
      "iv_measurement/1" stW).err = none := by
  have h := empty_rowset_logged_not_error_only_for_sweeps 0
    { sweep := "light", pixel := some ⟨"d1", 1⟩, data := [] }
    "iv_measurement/1" stW "liv" (by rfl) rfl
  exact ⟨h.1, h.2.1 (by rfl)⟩

/-! ### Claim C7 -/

theorem finishBackup_fs (st : SaverState) (p : String) (nf sr : Bool) (ev : List LogEvent) :
    (finishBackup st p nf sr ev).st.fs = st.fs := by
  unfold finishBackup
  split
  · split <;> rfl
  · rfl

/-- The scalar-sample creation shape of `write_record`: on a fresh path the
file is created with the kind's header and the first data row appended. -/
theorem write_record_scalar_creates (payload : DataPayload) (exp0 ts folder : String)
    (st : SaverState) (r : List Int) (rs : List (List Int))
    (hliv : (strStartsWith exp0 "liv" || strStartsWith exp0 "div") = false)
    (hdata : payload.data = r :: rs)
    (hfresh : st.fs.pathExists (folder ++ "/" ++ fnameOf (idnOf payload exp0) ts exp0) = false) :
    (write_record payload exp0 ts folder st).err = none ∧
    (write_record payload exp0 ts folder st).st.fs.lookup
      (folder ++ "/" ++ fnameOf (idnOf payload exp0) ts exp0) =
      some (.text [headerFor exp0, rowLine r]) := by
  simp only [write_record, hliv, Bool.false_eq_true, if_false, hdata, hfresh, Bool.not_false,
    if_true]
  constructor
  · exact finishBackup_err _ _ _ _ _
  · rw [finishBackup_fs]
    have := FS.addFile_appendLines_same st.fs
      (folder ++ "/" ++ fnameOf (idnOf payload exp0) ts exp0) (headerFor exp0) [rowLine r]
    simp only [this, FS.lookup_addFile_self]

/-- C7 counterexample: a data record of the unrecognized kind
`magic_measurement` is not rejected — no error is raised, a file is created
with the iv header chosen by fallback, and the row is persisted. -/
theorem unknown_kind_persisted_cex :
    (save_data 0 plW "magic_measurement" stW).err = none ∧
    (save_data 0 plW "magic_measurement" stW).st.fs.lookup "r/d1_device1_T.magic.tsv" =
      some (.text [iv_header, "0\t1"]) := by
  constructor <;> rfl

/-- C7 amended: only the calibration path rejects unrecognized kinds — an
unknown calibration kind persists nothing and enqueues nothing; the data path
has no kind check at all: header selection falls back to the iv header for
every extension other than `eqe` and `daq`, and the record is persisted under
that fallback header. -/
theorem unknown_kind_fallback_behavior (hts : Nat → String) (calPayload : CalPayload)
    (calKind : String) (extra : Option String) (st : SaverState)
    (payload : DataPayload) (exp0 ts folder : String) (st2 : SaverState)
    (r : List Int) (rs : List (List Int)) :
    (cal_target hts calPayload calKind extra = none →
      (save_calibration hts calPayload calKind extra st).st.fs.files = st.fs.files ∧
      (save_calibration hts calPayload calKind extra st).st.backup_q = st.backup_q ∧
      (save_calibration hts calPayload calKind extra st).err = none) ∧
    (exp0 ≠ "eqe" → exp0 ≠ "daq" → headerFor exp0 = iv_header) ∧
    ((strStartsWith exp0 "liv" || strStartsWith exp0 "div") = false →
      payload.data = r :: rs →
      st2.fs.pathExists (folder ++ "/" ++ fnameOf (idnOf payload exp0) ts exp0) = false →
      (write_record payload exp0 ts folder st2).err = none ∧
      (write_record payload exp0 ts folder st2).st.fs.lookup
        (folder ++ "/" ++ fnameOf (idnOf payload exp0) ts exp0) =
        some (.text [headerFor exp0, rowLine r])) := by
  refine ⟨fun hnone => ?_, fun h1 h2 => ?_, fun hliv hdata hfresh => ?_⟩
  · simp [save_calibration, hnone, FS.files_mkdirOk]
  · simp [headerFor, h1, h2]
  · exact write_record_scalar_creates payload exp0 ts folder st2 r rs hliv hdata hfresh

/-- Witness: the fallback branch at work on a concrete unknown kind `magic` —
calibration drops it while the record writer persists it under the iv
header. -/
theorem unknown_kind_fallback_behavior_witness :
    (save_calibration htsW ⟨0, "D", [[5]]⟩ "magic" none stW).st.fs.files = stW.fs.files ∧
    headerFor "magic" = iv_header ∧
    (write_record plW "magic" "T" "r" stW).st.fs.lookup "r/d1_device1_T.magic.tsv" =
      some (.text [iv_header, "0\t1"]) := by
  have h := unknown_kind_fallback_behavior htsW ⟨0, "D", [[5]]⟩ "magic" none stW
    plW "magic" "T" "r" stW [0, 1] []
  refine ⟨(h.1 (by rfl)).1, h.2.1 (by decide) (by decide), ?_⟩
  have h3 := (h.2.2 (by rfl) (by rfl) (by rfl)).2
  exact h3

/-! ### Claim C5 -/

theorem natRepr_length_pos (n : Nat) : 1 ≤ (natRepr n).length := by
  unfold natRepr
  split
  · decide
  · rename_i hn
    show 1 ≤ (((digitsLE n n).map Nat.digitChar).reverse.asString).data.length
    rw [show (((digitsLE n n).map Nat.digitChar).reverse.asString).data =
        ((digitsLE n n).map Nat.digitChar).reverse from rfl]
    simp only [List.length_reverse, List.length_map]
    cases hnn : n with
    | zero => exact absurd hnn hn
    | succ m =>
      rw [digitsLE]
      rw [if_neg (hnn ▸ hn)]
      simp

theorem alt_folder_ne (now : Nat) (rn : String) : natRepr now ++ "_" ++ rn ≠ rn := by
  intro h
  have hlen := congrArg String.length h
  rw [String.length_append, String.length_append] at hlen
  have h1 := natRepr_length_pos now
  have h2 : ("_" : String).length = 1 := rfl
  omega

theorem processPixelKeys_frame (pixelCsv : ArgVal → FileData) (ts folderName : String)
    (ftp : Option String) :
    ∀ (ks : List String) (entries : List (String × ArgVal)) (fs : FS) (bq : List String)
      (p : String) (d : FileData),
      (fs.lookup p = some d →
        (processPixelKeys pixelCsv ts folderName ftp ks entries fs bq).2.1.lookup p = some d) ∧
      ((processPixelKeys pixelCsv ts folderName ftp ks entries fs bq).2.1.lookup p = some d →
        fs.lookup p = some d ∨ ∃ s, p = folderName ++ "/" ++ s) := by
  intro ks
  induction ks with
  | nil => intro entries fs bq p d; exact ⟨fun h => h, fun h => Or.inl h⟩
  | cons k ks ih =>
    intro entries fs bq p d
    simp only [processPixelKeys]
    cases hv : lookupEntry entries k with
    | none => exact ⟨fun h => h, fun h => Or.inl h⟩
    | some v =>
      simp only []
      cases hex : fs.pathExists (folderName ++ "/" ++ (nameForKey k ++ "pixel_setup_" ++ ts ++
          ".csv")) with
      | true => simp only [if_true]; exact ⟨fun h => h, fun h => Or.inl h⟩
      | false =>
        simp only [Bool.false_eq_true, if_false]
        have hfree : fs.lookup (folderName ++ "/" ++ (nameForKey k ++ "pixel_setup_" ++ ts ++
            ".csv")) = none := by
          have hf : fs.fileExists (folderName ++ "/" ++ (nameForKey k ++ "pixel_setup_" ++ ts ++
              ".csv")) = false := by
            unfold FS.pathExists at hex
            exact (Bool.or_eq_false_iff.mp hex).1
          rw [FS.fileExists_iff_lookup_isSome] at hf
          exact Option.not_isSome_iff_eq_none.mp (by rw [hf]; exact Bool.noConfusion)
        constructor
        · intro h
          have hne : p ≠ folderName ++ "/" ++ (nameForKey k ++ "pixel_setup_" ++ ts ++ ".csv") := by
            intro hp
            rw [hp, hfree] at h
            exact Option.noConfusion h
          exact (ih _ _ _ p d).1 (by rw [FS.lookup_addFile_ne _ _ _ _ hne]; exact h)
        · intro h
          rcases (ih _ _ _ p d).2 h with h1 | h1
          · by_cases hp : p = folderName ++ "/" ++ (nameForKey k ++ "pixel_setup_" ++ ts ++ ".csv")
            · exact Or.inr ⟨_, hp⟩
            · rw [FS.lookup_addFile_ne _ _ _ _ hp] at h1
              exact Or.inl h1
          · exact Or.inr h1

/-- `Frames base out fn`: every file of `base` survives unchanged into `out`,
and every file of `out` is either an original file of `base` or lives under
the directory `fn`. -/
def Frames (base out : FS) (fn : String) : Prop :=
  (∀ p d, base.lookup p = some d → out.lookup p = some d) ∧
  (∀ p d, out.lookup p = some d → base.lookup p = some d ∨ ∃ s, p = fn ++ "/" ++ s)

theorem Frames.refl_self (base : FS) (fn : String) : Frames base base fn :=
  ⟨fun _ _ h => h, fun _ _ h => Or.inl h⟩

theorem Frames.comp {base mid out : FS} {fn : String} (h1 : Frames base mid fn)
    (h2 : Frames mid out fn) : Frames base out fn :=
  ⟨fun p d h => h2.1 p d (h1.1 p d h),
   fun p d h => match h2.2 p d h with
     | .inl hm => h1.2 p d hm
     | .inr hf => .inr hf⟩

theorem lookup_none_of_pathExists_false (fs : FS) (q : String)
    (hq : fs.pathExists q = false) : fs.lookup q = none := by
  have hf : fs.fileExists q = false := by
    unfold FS.pathExists at hq
    exact (Bool.or_eq_false_iff.mp hq).1
  rw [FS.fileExists_iff_lookup_isSome] at hf
  exact Option.not_isSome_iff_eq_none.mp (by rw [hf]; exact Bool.noConfusion)

theorem freshAddFile_frames (fs : FS) (fn q : String) (c : FileData)
    (hq : fs.pathExists q = false) (hform : ∃ s, q = fn ++ "/" ++ s) :
    Frames fs (fs.addFile q c) fn := by
  have hqfree : fs.lookup q = none := lookup_none_of_pathExists_false fs q hq
  constructor
  · intro p d hp
    have hne : p ≠ q := by
      intro he
      rw [he, hqfree] at hp
      exact Option.noConfusion hp
    rw [FS.lookup_addFile_ne _ _ _ _ hne]
    exact hp
  · intro p d hp
    by_cases he : p = q
    · obtain ⟨s, hs⟩ := hform
      exact Or.inr ⟨s, he.trans hs⟩
    · rw [FS.lookup_addFile_ne _ _ _ _ he] at hp
      exact Or.inl hp

theorem mkdir_frames (fs : FS) (fn d : String) : Frames fs (fs.mkdir d) fn :=
  ⟨fun p c h => by rw [FS.lookup_mkdir]; exact h,
   fun p c h => Or.inl (by rw [FS.lookup_mkdir] at h; exact h)⟩

theorem processPixelKeys_frames (pixelCsv : ArgVal → FileData) (ts folderName : String)
    (ftp : Option String) :
    ∀ (ks : List String) (entries : List (String × ArgVal)) (fs : FS) (bq : List String),
      Frames fs (processPixelKeys pixelCsv ts folderName ftp ks entries fs bq).2.1 folderName := by
  intro ks
  induction ks with
  | nil => intro entries fs bq; exact Frames.refl_self fs folderName
  | cons k ks ih =>
    intro entries fs bq
    simp only [processPixelKeys]
    cases hv : lookupEntry entries k with
    | none => exact Frames.refl_self fs folderName
    | some v =>
      simp only []
      cases hex : fs.pathExists (folderName ++ "/" ++ (nameForKey k ++ "pixel_setup_" ++ ts ++
          ".csv")) with
      | true => simp only [if_true]; exact Frames.refl_self fs folderName
      | false =>
        simp only [Bool.false_eq_true, if_false]
        exact Frames.comp
          (freshAddFile_frames fs folderName _ (pixelCsv v) hex ⟨_, rfl⟩)
          (ih _ _ _)

theorem processPixelKeys_dirs (pixelCsv : ArgVal → FileData) (ts folderName : String)
    (ftp : Option String) :
    ∀ (ks : List String) (entries : List (String × ArgVal)) (fs : FS) (bq : List String),
      (processPixelKeys pixelCsv ts folderName ftp ks entries fs bq).2.1.dirs = fs.dirs := by
  intro ks
  induction ks with
  | nil => intro entries fs bq; rfl
  | cons k ks ih =>
    intro entries fs bq
    simp only [processPixelKeys]
    cases hv : lookupEntry entries k with
    | none => rfl
    | some v =>
      simp only []
      cases hex : fs.pathExists (folderName ++ "/" ++ (nameForKey k ++ "pixel_setup_" ++ ts ++
          ".csv")) with
      | true => simp only [if_true]
      | false =>
        simp only [Bool.false_eq_true, if_false]
        rw [ih]
        rfl

theorem tables_step_facts (pixelCsv : ArgVal → FileData) (ts folderName : String)
    (ftp : Option String) (entries : List (String × ArgVal)) (fsM : FS) (bq : List String)
    (opt : Option (List String)) (eT : List (String × ArgVal)) (fsT : FS) (bqT : List String)
    (errT : Option SaveErr)
    (heq : (match opt with
       | some ks => processPixelKeys pixelCsv ts folderName ftp ks entries fsM bq
       | none => (entries, fsM, bq, none)) = (eT, fsT, bqT, errT)) :
    Frames fsM fsT folderName ∧ fsT.dirs = fsM.dirs := by
  cases opt with
  | none =>
    rw [Prod.mk.injEq, Prod.mk.injEq, Prod.mk.injEq] at heq
    rw [← heq.2.1]
    exact ⟨Frames.refl_self fsM folderName, rfl⟩
  | some ks =>
    have h1 := processPixelKeys_frames pixelCsv ts folderName ftp ks entries fsM bq
    have h2 := processPixelKeys_dirs pixelCsv ts folderName ftp ks entries fsM bq
    simp only at heq
    rw [heq] at h1 h2
    exact ⟨h1, h2⟩

theorem bool_not_true {b : Bool} (h : ¬(b = true)) : b = false := by
  cases hb : b
  · rfl
  · exact absurd hb h

theorem persist_run_files_frame (pixelCsv : ArgVal → FileData) (payload : RunPayload)
    (folderName : String) (st1 : SaverState) (ev1 : List LogEvent) :
    (persist_run_files pixelCsv payload folderName st1 ev1).st.folder = st1.folder ∧
    Frames st1.fs (persist_run_files pixelCsv payload folderName st1 ev1).st.fs folderName ∧
    (st1.fs.pathExists folderName = true →
      persist_run_files pixelCsv payload folderName st1 ev1 =
        ⟨st1, ev1, some .fileExistsErr⟩) ∧
    (st1.fs.pathExists folderName = false →
      (persist_run_files pixelCsv payload folderName st1 ev1).st.fs.dirExists folderName
        = true) := by
  cases hex : st1.fs.pathExists folderName with
  | true =>
    have hres : persist_run_files pixelCsv payload folderName st1 ev1 =
        ⟨st1, ev1, some .fileExistsErr⟩ := by
      unfold persist_run_files
      rw [hex]
      rfl
    exact ⟨by rw [hres], by rw [hres]; exact Frames.refl_self st1.fs folderName,
      fun _ => hres, fun hf => Bool.noConfusion hf⟩
  | false =>
    unfold persist_run_files
    rw [hex]
    simp only [Bool.false_eq_true, if_false]
    split
    · rename_i eT fsT bqT e heq
      obtain ⟨hfr, hdirs⟩ := tables_step_facts pixelCsv payload.args.run_name_suffix folderName
        st1.ftp_uri payload.args.entries (st1.fs.mkdir folderName) st1.backup_q
        payload.args.pixel_data_object_names eT fsT bqT (some e) heq
      refine ⟨rfl, Frames.comp (mkdir_frames st1.fs folderName folderName) hfr,
        fun h => h.elim, fun _ => ?_⟩
      show fsT.dirExists folderName = true
      unfold FS.dirExists
      rw [hdirs]
      simp [FS.mkdir]
    · rename_i eT fsT bqT heq
      obtain ⟨hfr, hdirs⟩ := tables_step_facts pixelCsv payload.args.run_name_suffix folderName
        st1.ftp_uri payload.args.entries (st1.fs.mkdir folderName) st1.backup_q
        payload.args.pixel_data_object_names eT fsT bqT none heq
      have hF1 : Frames st1.fs fsT folderName :=
        Frames.comp (mkdir_frames st1.fs folderName folderName) hfr
      have hD1 : fsT.dirExists folderName = true := by
        unfold FS.dirExists
        rw [hdirs]
        simp [FS.mkdir]
      split
      · exact ⟨rfl, hF1, fun h => h.elim, fun _ => hD1⟩
      · rename_i hrex
        have hrexF := bool_not_true hrex
        have hF2 : Frames st1.fs (fsT.addFile (folderName ++ "/" ++
            ("run_args_" ++ payload.args.run_name_suffix ++ ".yaml")) (.yamlArgs eT))
            folderName :=
          Frames.comp hF1 (freshAddFile_frames fsT folderName _ _ hrexF ⟨_, rfl⟩)
        split <;> split
        · exact ⟨rfl, hF2, fun h => h.elim, fun _ => hD1⟩
        · rename_i hcex
          have hcexF := bool_not_true hcex
          exact ⟨rfl, Frames.comp hF2 (freshAddFile_frames _ folderName _ _ hcexF ⟨_, rfl⟩),
            fun h => h.elim, fun _ => hD1⟩
        · exact ⟨rfl, hF2, fun h => h.elim, fun _ => hD1⟩
        · rename_i hcex
          have hcexF := bool_not_true hcex
          exact ⟨rfl, Frames.comp hF2 (freshAddFile_frames _ folderName _ _ hcexF ⟨_, rfl⟩),
            fun h => h.elim, fun _ => hD1⟩

/-- C5: when the requested run directory already exists on disk, the run is
redirected to the distinct alternate directory named by prefixing the current
epoch time to the requested name; the alternate is created exclusively (the
operation fails rather than reuse an existing path), every pre-existing file
is preserved unchanged, and every file the run writes lives under the
alternate directory — nothing is written into the pre-existing one. -/
theorem run_folder_collision_uses_alternate (now : Nat) (pixelCsv : ArgVal → FileData)
    (payload : RunPayload) (st : SaverState)
    (hex : st.fs.pathExists payload.args.run_name = true) :
    (save_run_settings now pixelCsv payload st).st.folder =
      some (natRepr now ++ "_" ++ payload.args.run_name) ∧
    natRepr now ++ "_" ++ payload.args.run_name ≠ payload.args.run_name ∧
    Frames st.fs (save_run_settings now pixelCsv payload st).st.fs
      (natRepr now ++ "_" ++ payload.args.run_name) ∧
    (st.fs.pathExists (natRepr now ++ "_" ++ payload.args.run_name) = true →
      (save_run_settings now pixelCsv payload st).err = some .fileExistsErr) ∧
    (st.fs.pathExists (natRepr now ++ "_" ++ payload.args.run_name) = false →
      (save_run_settings now pixelCsv payload st).st.fs.dirExists
        (natRepr now ++ "_" ++ payload.args.run_name) = true) := by
  have hs : save_run_settings now pixelCsv payload st =
      persist_run_files pixelCsv payload (natRepr now ++ "_" ++ payload.args.run_name)
        { st with folder := some (natRepr now ++ "_" ++ payload.args.run_name) }
        [LogEvent.warn ("Attempt to remake pre-existing run folder: " ++ payload.args.run_name),
         LogEvent.warn "Falling back to timestamp-named folder to prevent overwriting data."] := by
    unfold save_run_settings
    simp only [hex]
    rfl
  have hp := persist_run_files_frame pixelCsv payload
    (natRepr now ++ "_" ++ payload.args.run_name)
    { st with folder := some (natRepr now ++ "_" ++ payload.args.run_name) }
    [LogEvent.warn ("Attempt to remake pre-existing run folder: " ++ payload.args.run_name),
     LogEvent.warn "Falling back to timestamp-named folder to prevent overwriting data."]
  rw [hs]
  exact ⟨hp.1, alt_folder_ne now payload.args.run_name, hp.2.1,
    fun h => by rw [hp.2.2.1 h], hp.2.2.2⟩

/-- Witness: with run name `r` already on disk and the clock at 0, the run
lands in the fresh exclusive directory `0_r`. -/
theorem run_folder_collision_uses_alternate_witness :
    (save_run_settings 0 pixelCsvW ⟨⟨"r", "S", none, []⟩, "cfg"⟩ stW).st.folder =
      some "0_r" ∧
    (save_run_settings 0 pixelCsvW ⟨⟨"r", "S", none, []⟩, "cfg"⟩ stW).st.fs.dirExists
      "0_r" = true := by
  have h := run_folder_collision_uses_alternate 0 pixelCsvW ⟨⟨"r", "S", none, []⟩, "cfg"⟩ stW
    (by decide)
  exact ⟨h.1, h.2.2.2.2 (by decide)⟩

/-! ### Claim C10 -/

theorem lookupEntry_eraseEntry_self (entries : List (String × ArgVal)) (k : String) :
    lookupEntry (eraseEntry entries k) k = none := by
  unfold lookupEntry eraseEntry
  induction entries with
  | nil => rfl
  | cons e es ih =>
    simp only [List.filter]
    cases he : (e.1 != k) with
    | false => exact ih
    | true =>
      simp only [List.find?]
      rw [show (e.1 == k) = false by simpa using he]
      exact ih

theorem lookupEntry_eraseEntry_none (entries : List (String × ArgVal)) (k k2 : String)
    (h : lookupEntry entries k = none) : lookupEntry (eraseEntry entries k2) k = none := by
  unfold lookupEntry at h
  unfold lookupEntry eraseEntry
  induction entries with
  | nil => rfl
  | cons e es ih =>
    simp only [List.find?] at h
    cases hk : (e.1 == k) with
    | true => rw [hk] at h; exact Option.noConfusion h
    | false =>
      rw [hk] at h
      simp only [List.filter]
      cases he : (e.1 != k2) with
      | false => exact ih h
      | true =>
        simp only [List.find?, hk]
        exact ih h

theorem lookupEntry_foldl_none (ks : List String) :
    ∀ (entries : List (String × ArgVal)) (k : String), lookupEntry entries k = none →
      lookupEntry (ks.foldl eraseEntry entries) k = none := by
  induction ks with
  | nil => intro entries k h; exact h
  | cons k1 ks ih =>
    intro entries k h
    rw [List.foldl_cons]
    exact ih _ _ (lookupEntry_eraseEntry_none _ _ _ h)

theorem lookupEntry_foldl_erase (ks : List String) :
    ∀ (entries : List (String × ArgVal)) (k : String), k ∈ ks →
      lookupEntry (ks.foldl eraseEntry entries) k = none := by
  induction ks with
  | nil => intro entries k h; exact absurd h (List.not_mem_nil k)
  | cons k0 ks ih =>
    intro entries k h
    rw [List.foldl_cons]
    rcases List.mem_cons.mp h with h1 | h1
    · subst h1
      exact lookupEntry_foldl_none ks _ _ (lookupEntry_eraseEntry_self entries k)
    · exact ih (eraseEntry entries k0) k h1

theorem processPixelKeys_success (pixelCsv : ArgVal → FileData) (ts folderName : String)
    (ftp : Option String) :
    ∀ (ks : List String) (entries : List (String × ArgVal)) (fs : FS) (bq : List String)
      (eT : List (String × ArgVal)) (fsT : FS) (bqT : List String),
      processPixelKeys pixelCsv ts folderName ftp ks entries fs bq = (eT, fsT, bqT, none) →
      eT = ks.foldl eraseEntry entries := by
  intro ks
  induction ks with
  | nil =>
    intro entries fs bq eT fsT bqT h
    rw [Prod.mk.injEq, Prod.mk.injEq, Prod.mk.injEq] at h
    exact h.1.symm
  | cons k ks ih =>
    intro entries fs bq eT fsT bqT h
    rw [List.foldl_cons]
    simp only [processPixelKeys] at h
    cases hv : lookupEntry entries k with
    | none =>
      rw [hv] at h
      rw [Prod.mk.injEq, Prod.mk.injEq, Prod.mk.injEq] at h
      exact absurd h.2.2.2 (by simp)
    | some v =>
      rw [hv] at h
      simp only [] at h
      split at h
      · rw [Prod.mk.injEq, Prod.mk.injEq, Prod.mk.injEq] at h
        exact absurd h.2.2.2 (by simp)
      · exact ih _ _ _ _ _ _ h

theorem processPixelKeys_csv_written (pixelCsv : ArgVal → FileData) (ts folderName : String)
    (ftp : Option String) :
    ∀ (ks : List String) (entries : List (String × ArgVal)) (fs : FS) (bq : List String)
      (eT : List (String × ArgVal)) (fsT : FS) (bqT : List String),
      processPixelKeys pixelCsv ts folderName ftp ks entries fs bq = (eT, fsT, bqT, none) →
      ∀ k ∈ ks, ∃ v, fsT.lookup
        (folderName ++ "/" ++ (nameForKey k ++ "pixel_setup_" ++ ts ++ ".csv")) =
        some (pixelCsv v) := by
  intro ks
  induction ks with
  | nil => intro entries fs bq eT fsT bqT h k hk; exact absurd hk (List.not_mem_nil k)
  | cons k0 ks ih =>
    intro entries fs bq eT fsT bqT h k hk
    simp only [processPixelKeys] at h
    cases hv : lookupEntry entries k0 with
    | none =>
      rw [hv] at h
      rw [Prod.mk.injEq, Prod.mk.injEq, Prod.mk.injEq] at h
      exact absurd h.2.2.2 (by simp)
    | some v =>
      rw [hv] at h
      simp only [] at h
      split at h
      · rw [Prod.mk.injEq, Prod.mk.injEq, Prod.mk.injEq] at h
        exact absurd h.2.2.2 (by simp)
      · rename_i hfresh
        have hfr := processPixelKeys_frames pixelCsv ts folderName ftp ks
          (eraseEntry entries k0)
          (fs.addFile (folderName ++ "/" ++ (nameForKey k0 ++ "pixel_setup_" ++ ts ++ ".csv"))
            (pixelCsv v))
          (if ftp.isSome = true then bq ++
            [folderName ++ "/" ++ (nameForKey k0 ++ "pixel_setup_" ++ ts ++ ".csv")] else bq)
        rcases List.mem_cons.mp hk with h1 | h1
        · subst h1
          refine ⟨v, ?_⟩
          have hself := FS.lookup_addFile_self fs
            (folderName ++ "/" ++ (nameForKey k ++ "pixel_setup_" ++ ts ++ ".csv")) (pixelCsv v)
          have h2 := hfr.1 _ _ hself
          rw [h] at h2
          exact h2
        · obtain ⟨v1, hv1⟩ := ih _ _ _ _ _ _ h k h1
          exact ⟨v1, hv1⟩

theorem final_fs_lookup (pixelCsv : ArgVal → FileData) (folderName ts cfg : String)
    (fsT : FS) (eT entries : List (String × ArgVal)) (ks : List String)
    (hET : eT = ks.foldl eraseEntry entries)
    (hCSV : ∀ k ∈ ks, ∃ v, fsT.lookup
      (folderName ++ "/" ++ (nameForKey k ++ "pixel_setup_" ++ ts ++ ".csv")) =
      some (pixelCsv v))
    (hrapFree : fsT.lookup (folderName ++ "/" ++ ("run_args_" ++ ts ++ ".yaml")) = none)
    (hcfpFree : (fsT.addFile (folderName ++ "/" ++ ("run_args_" ++ ts ++ ".yaml"))
      (FileData.yamlArgs eT)).lookup
      (folderName ++ "/" ++ ("measurement_config_" ++ ts ++ ".yaml")) = none) :
    ((fsT.addFile (folderName ++ "/" ++ ("run_args_" ++ ts ++ ".yaml"))
        (FileData.yamlArgs eT)).addFile
        (folderName ++ "/" ++ ("measurement_config_" ++ ts ++ ".yaml"))
        (FileData.yamlConfig cfg)).lookup
      (folderName ++ "/" ++ ("run_args_" ++ ts ++ ".yaml")) =
      some (FileData.yamlArgs (ks.foldl eraseEntry entries)) ∧
    (∀ k ∈ ks, ∃ v, ((fsT.addFile (folderName ++ "/" ++ ("run_args_" ++ ts ++ ".yaml"))
        (FileData.yamlArgs eT)).addFile
        (folderName ++ "/" ++ ("measurement_config_" ++ ts ++ ".yaml"))
        (FileData.yamlConfig cfg)).lookup
      (folderName ++ "/" ++ (nameForKey k ++ "pixel_setup_" ++ ts ++ ".csv")) =
      some (pixelCsv v)) := by
  have hrap1 : (fsT.addFile (folderName ++ "/" ++ ("run_args_" ++ ts ++ ".yaml"))
      (FileData.yamlArgs eT)).lookup (folderName ++ "/" ++ ("run_args_" ++ ts ++ ".yaml")) =
      some (FileData.yamlArgs eT) := FS.lookup_addFile_self _ _ _
  have hne1 : folderName ++ "/" ++ ("run_args_" ++ ts ++ ".yaml") ≠
      folderName ++ "/" ++ ("measurement_config_" ++ ts ++ ".yaml") := by
    intro hp
    rw [← hp, hrap1] at hcfpFree
    exact Option.noConfusion hcfpFree
  constructor
  · rw [FS.lookup_addFile_ne _ _ _ _ hne1, hrap1, hET]
  · intro k hk
    obtain ⟨v, hv⟩ := hCSV k hk
    refine ⟨v, ?_⟩
    have hne2 : folderName ++ "/" ++ (nameForKey k ++ "pixel_setup_" ++ ts ++ ".csv") ≠
        folderName ++ "/" ++ ("run_args_" ++ ts ++ ".yaml") := by
      intro hp
      rw [← hp, hv] at hrapFree
      exact Option.noConfusion hrapFree
    have hne3 : folderName ++ "/" ++ (nameForKey k ++ "pixel_setup_" ++ ts ++ ".csv") ≠
        folderName ++ "/" ++ ("measurement_config_" ++ ts ++ ".yaml") := by
      intro hp
      rw [← hp, FS.lookup_addFile_ne _ _ _ _ hne2, hv] at hcfpFree
      exact Option.noConfusion hcfpFree
    rw [FS.lookup_addFile_ne _ _ _ _ hne3, FS.lookup_addFile_ne _ _ _ _ hne2]
    exact hv

theorem persist_run_files_args (pixelCsv : ArgVal → FileData) (payload : RunPayload)
    (folderName : String) (st1 : SaverState) (ev1 : List LogEvent) (ks : List String)
    (hks : payload.args.pixel_data_object_names = some ks) (r : SaveResult)
    (heq : persist_run_files pixelCsv payload folderName st1 ev1 = r)
    (hok : r.err = none) :
    r.st.fs.lookup
      (folderName ++ "/" ++ ("run_args_" ++ payload.args.run_name_suffix ++ ".yaml")) =
      some (.yamlArgs (ks.foldl eraseEntry payload.args.entries)) ∧
    (∀ k ∈ ks, ∃ v, r.st.fs.lookup
      (folderName ++ "/" ++ (nameForKey k ++ "pixel_setup_" ++
        payload.args.run_name_suffix ++ ".csv")) = some (pixelCsv v)) := by
  unfold persist_run_files at heq
  split at heq
  · subst heq
    exact absurd hok (by simp)
  · rw [hks] at heq
    dsimp only at heq
    split at heq
    · rename_i eT fsT bqT e hpp
      subst heq
      exact absurd hok (by simp)
    · rename_i eT fsT bqT hpp
      have hET := processPixelKeys_success pixelCsv payload.args.run_name_suffix folderName
        st1.ftp_uri ks payload.args.entries (st1.fs.mkdir folderName) st1.backup_q
        eT fsT bqT hpp
      have hCSV := processPixelKeys_csv_written pixelCsv payload.args.run_name_suffix folderName
        st1.ftp_uri ks payload.args.entries (st1.fs.mkdir folderName) st1.backup_q
        eT fsT bqT hpp
      split at heq
      · subst heq
        exact absurd hok (by simp)
      · rename_i hrex
        have hrexF := bool_not_true hrex
        have hrapFree : fsT.lookup (folderName ++ "/" ++
            ("run_args_" ++ payload.args.run_name_suffix ++ ".yaml")) = none :=
          lookup_none_of_pathExists_false _ _ hrexF
        split at heq
        · rename_i hftp
          split at heq
          · subst heq
            exact absurd hok (by simp)
          · rename_i hcex
            have hcfpFree := lookup_none_of_pathExists_false _ _ (bool_not_true hcex)
            simp only [hftp, if_true] at heq
            subst heq
            exact final_fs_lookup pixelCsv folderName payload.args.run_name_suffix
              payload.config fsT eT payload.args.entries ks hET hCSV hrapFree hcfpFree
        · rename_i hftp
          split at heq
          · subst heq
            exact absurd hok (by simp)
          · rename_i hcex
            have hcfpFree := lookup_none_of_pathExists_false _ _ (bool_not_true hcex)
            simp only [hftp, Bool.false_eq_true, if_false] at heq
            subst heq
            exact final_fs_lookup pixelCsv folderName payload.args.run_name_suffix
              payload.config fsT eT payload.args.entries ks hET hCSV hrapFree hcfpFree

theorem save_run_settings_decomp (now : Nat) (pixelCsv : ArgVal → FileData)
    (payload : RunPayload) (st : SaverState) :
    ∃ fn st1 ev1, save_run_settings now pixelCsv payload st =
      persist_run_files pixelCsv payload fn st1 ev1 ∧ st1.folder = some fn := by
  cases hex : st.fs.pathExists payload.args.run_name with
  | true =>
    refine ⟨natRepr now ++ "_" ++ payload.args.run_name,
      { st with folder := some (natRepr now ++ "_" ++ payload.args.run_name) },
      [LogEvent.warn ("Attempt to remake pre-existing run folder: " ++ payload.args.run_name),
       LogEvent.warn "Falling back to timestamp-named folder to prevent overwriting data."],
      ?_, rfl⟩
    unfold save_run_settings
    simp only [hex]
    rfl
  | false =>
    refine ⟨payload.args.run_name, { st with folder := some payload.args.run_name }, [],
      ?_, rfl⟩
    unfold save_run_settings
    simp only [hex]
    rfl

/-- C10: on a successful run-start with device-selection tables, each listed
table key is deleted from the argument mapping before the run-args YAML dump:
the persisted run-args file holds exactly the mapping with every listed key
erased (so it contains no raw device-table object), while each table went to
its own CSV file under the run directory — no table is persisted twice. -/
theorem pixel_tables_removed_before_args_dump (now : Nat) (pixelCsv : ArgVal → FileData)
    (payload : RunPayload) (st : SaverState) (ks : List String)
    (hks : payload.args.pixel_data_object_names = some ks)
    (hok : (save_run_settings now pixelCsv payload st).err = none) :
    ∃ folderName,
      (save_run_settings now pixelCsv payload st).st.folder = some folderName ∧
      (save_run_settings now pixelCsv payload st).st.fs.lookup
        (folderName ++ "/" ++ ("run_args_" ++ payload.args.run_name_suffix ++ ".yaml")) =
        some (.yamlArgs (ks.foldl eraseEntry payload.args.entries)) ∧
      (∀ k ∈ ks, lookupEntry (ks.foldl eraseEntry payload.args.entries) k = none) ∧
      (∀ k ∈ ks, ∃ v, (save_run_settings now pixelCsv payload st).st.fs.lookup
        (folderName ++ "/" ++ (nameForKey k ++ "pixel_setup_" ++
          payload.args.run_name_suffix ++ ".csv")) = some (pixelCsv v)) := by
  obtain ⟨fn, st1, ev1, hdec, hfold⟩ := save_run_settings_decomp now pixelCsv payload st
  rw [hdec] at hok ⊢
  have h := persist_run_files_args pixelCsv payload fn st1 ev1 ks hks _ rfl hok
  have hf := (persist_run_files_frame pixelCsv payload fn st1 ev1).1
  exact ⟨fn, by rw [hf, hfold], h.1,
    fun k hk => lookupEntry_foldl_erase ks payload.args.entries k hk, h.2⟩

/-- Witness: a concrete run with one IV device table — the dumped args lack
the table key, which went to its own CSV instead. -/
theorem pixel_tables_removed_before_args_dump_witness :
    (save_run_settings 0 pixelCsvW
      ⟨⟨"run1", "S", some ["IV_stuff"],
        [("IV_stuff", ArgVal.table [["a"]]), ("other", ArgVal.scalar "x")]⟩, "cfg"⟩
      stW).st.fs.lookup "run1/run_args_S.yaml" =
      some (.yamlArgs [("other", ArgVal.scalar "x")]) := by
  obtain ⟨fn, hfold, h1, _, _⟩ := pixel_tables_removed_before_args_dump 0 pixelCsvW
    ⟨⟨"run1", "S", some ["IV_stuff"],
      [("IV_stuff", ArgVal.table [["a"]]), ("other", ArgVal.scalar "x")]⟩, "cfg"⟩
    stW ["IV_stuff"] rfl (by rfl)
  have hcomp : some fn = some "run1" := by
    rw [← hfold]
    rfl
  injection hcomp with hfn
  rw [hfn] at h1
  exact h1

/-! ### Claim C4 -/

theorem finishBackup_folder (st : SaverState) (p : String) (nf sr : Bool)
    (ev : List LogEvent) : (finishBackup st p nf sr ev).st.folder = st.folder := by
  unfold finishBackup
  split
  · split <;> rfl
  · rfl

theorem finishBackup_ts (st : SaverState) (p : String) (nf sr : Bool)
    (ev : List LogEvent) : (finishBackup st p nf sr ev).st.exp_timestamp = st.exp_timestamp := by
  unfold finishBackup
  split
  · split <;> rfl
  · rfl

theorem write_record_ctx (payload : DataPayload) (exp0 ts folder : String) (st : SaverState) :
    (write_record payload exp0 ts folder st).st.folder = st.folder ∧
    (write_record payload exp0 ts folder st).st.exp_timestamp = st.exp_timestamp := by
  constructor <;>
  · simp only [write_record]
    repeat' split
    all_goals simp [finishBackup_folder, finishBackup_ts]

/-- C4: a data record arriving with no active run (both epoch and folder
unset) makes the saver synthesize an epoch from the clock and a directory
named after it, create that directory, emit the missed-run-start warnings,
and then persist the record exactly as it would under an explicitly
configured run context with the same epoch, folder, and created directory:
the resulting state, error behaviour, and record-writing events coincide. -/
theorem missed_run_start_synthesizes_context (now : Nat) (payload : DataPayload)
    (kind : String) (st : SaverState) (exp0 : String)
    (hexp : expOf payload kind = .ok exp0)
    (hf : st.folder = none) (ht : st.exp_timestamp = none)
    (hfresh : st.fs.pathExists (natRepr now) = false) :
    (save_data now payload kind st).st =
      (save_data now payload kind
        { st with folder := some (natRepr now), exp_timestamp := some (natRepr now),
                  fs := st.fs.mkdir (natRepr now) }).st ∧
    (save_data now payload kind st).err =
      (save_data now payload kind
        { st with folder := some (natRepr now), exp_timestamp := some (natRepr now),
                  fs := st.fs.mkdir (natRepr now) }).err ∧
    (save_data now payload kind st).events =
      missedEpochEvents (natRepr now) ++ missedFolderEvents (natRepr now) ++
        regenFolderEvents ++
        (save_data now payload kind
          { st with folder := some (natRepr now), exp_timestamp := some (natRepr now),
                    fs := st.fs.mkdir (natRepr now) }).events ∧
    (save_data now payload kind st).st.folder = some (natRepr now) ∧
    (save_data now payload kind st).st.exp_timestamp = some (natRepr now) := by
  have hmk : (st.fs.mkdir (natRepr now)).pathExists (natRepr now) = true := by
    rw [FS.pathExists_mkdir]
    simp
  have hW := write_record_ctx payload exp0 (natRepr now) (natRepr now)
    { st with folder := some (natRepr now), exp_timestamp := some (natRepr now),
              fs := st.fs.mkdir (natRepr now) }
  simp only [save_data, hexp, hf, ht, hfresh, hmk, Bool.false_eq_true, if_false, if_true,
    List.append_assoc, List.nil_append, List.append_nil]
  refine ⟨?_, ?_, ?_, hW.1, hW.2⟩ <;> trivial

/-- Witness: a concrete record with no prior run-start lands in the
synthesized folder `99` with epoch `99` and the same persisted file as the
explicit-context run. -/
theorem missed_run_start_synthesizes_context_witness :
    (save_data 99 plW "vt_measurement"
      { folder := none, exp_timestamp := none, fs := ⟨[], []⟩, backup_q := [],
        trigger_backup := false, ftp_uri := none }).st.folder = some "99" ∧
    (save_data 99 plW "vt_measurement"
      { folder := none, exp_timestamp := none, fs := ⟨[], []⟩, backup_q := [],
        trigger_backup := false, ftp_uri := none }).st.exp_timestamp = some "99" := by
  have h := missed_run_start_synthesizes_context 99 plW "vt_measurement"
    { folder := none, exp_timestamp := none, fs := ⟨[], []⟩, backup_q := [],
      trigger_backup := false, ftp_uri := none } "vt" (by rfl) rfl rfl (by decide)
  exact ⟨h.2.2.2.1, h.2.2.2.2⟩

/-! ### Claim C2 -/

/-- The target path of the `j`-th sweep file for one device and run epoch. -/
def sweepPath (payload : DataPayload) (exp0 f t : String) (j : Nat) : String :=
  f ++ "/" ++ fnameOf (idnOf payload exp0) t (exp0 ++ natRepr j)

theorem string_data_ext {s t : String} (h : s.data = t.data) : s = t := by
  cases s
  cases t
  cases h
  rfl

theorem sweepPath_inj (payload : DataPayload) (exp0 f t : String) {i j : Nat}
    (h : sweepPath payload exp0 f t i = sweepPath payload exp0 f t j) : i = j := by
  apply natRepr_injective
  apply string_data_ext
  have hd := congrArg String.data h
  simp only [sweepPath, fnameOf, String.data_append, List.append_assoc] at hd
  have h1 := List.append_cancel_left hd
  have h2 := List.append_cancel_left h1
  have h3 := List.append_cancel_left h2
  have h4 := List.append_cancel_left h3
  have h5 := List.append_cancel_left h4
  have h6 := List.append_cancel_left h5
  have h7 := List.append_cancel_left h6
  exact List.append_cancel_right h7

theorem sweepPath_length_gt (payload : DataPayload) (exp0 f t : String) (j : Nat) :
    f.length < (sweepPath payload exp0 f t j).length := by
  unfold sweepPath fnameOf
  simp only [String.length_append]
  have h1 : ("/" : String).length = 1 := rfl
  have h2 : (".tsv" : String).length = 4 := rfl
  omega

theorem sweepPath_ne_folder (payload : DataPayload) (exp0 f t : String) (j : Nat) :
    sweepPath payload exp0 f t j ≠ f := by
  intro h
  have := sweepPath_length_gt payload exp0 f t j
  rw [h] at this
  omega

/-- The probe loop stops at the first integer suffix whose target file does
not exist: if all suffixes in `[i, k)` are taken and `k` is free, enough fuel
makes the probe return suffix `k`. -/
theorem probe_first_free (fs : FS) (folder idn ts exp : String) :
    ∀ (fuel i k : Nat), i ≤ k →
      (∀ m, i ≤ m → m < k →
        fs.pathExists (folder ++ "/" ++ fnameOf idn ts (exp ++ natRepr m)) = true) →
      fs.pathExists (folder ++ "/" ++ fnameOf idn ts (exp ++ natRepr k)) = false →
      k - i < fuel →
      probeIvExt fs folder idn ts exp fuel i = exp ++ natRepr k := by
  intro fuel
  induction fuel with
  | zero => intro i k _ _ _ hlt; omega
  | succ fl ih =>
    intro i k hik hall hfree hlt
    simp only [probeIvExt]
    rcases Nat.eq_or_lt_of_le hik with he | hl
    · subst he
      rw [hfree]
      simp
    · rw [hall i (Nat.le_refl i) hl]
      simp only [if_true]
      exact ih (i + 1) k hl (fun m hm => hall m (Nat.le_of_succ_le hm)) hfree (by omega)

theorem headerFor_sweep (e : String)
    (h : (strStartsWith e "liv" || strStartsWith e "div") = true) :
    headerFor e = iv_header := by
  unfold headerFor
  split
  · rename_i he
    rw [show e = "eqe" by simpa using he] at h
    exact absurd h (by decide)
  · split
    · rename_i _ he
      rw [show e = "daq" by simpa using he] at h
      exact absurd h (by decide)
    · rfl

theorem sweep_cond_append (exp0 : String) (j : Nat)
    (h : (strStartsWith exp0 "liv" || strStartsWith exp0 "div") = true) :
    (strStartsWith (exp0 ++ natRepr j) "liv" ||
      strStartsWith (exp0 ++ natRepr j) "div") = true := by
  rcases Bool.or_eq_true_iff.mp h with h1 | h1
  · rw [strStartsWith_append _ _ _ h1]
    rfl
  · rw [strStartsWith_append _ _ _ h1, Bool.or_true]

/-- One sweep write when the probe lands on suffix `n+1`: the file is created
fresh with the iv header and the whole row batch, and nothing else in the
filesystem changes. -/
theorem write_record_sweep (payload : DataPayload) (exp0 ts folder : String)
    (st : SaverState) (n : Nat)
    (hliv : (strStartsWith exp0 "liv" || strStartsWith exp0 "div") = true)
    (hprobe : probeIvExt st.fs folder (idnOf payload exp0) ts exp0 (probeFuel st.fs) 1 =
      exp0 ++ natRepr (n + 1))
    (hfree : st.fs.pathExists
      (folder ++ "/" ++ fnameOf (idnOf payload exp0) ts (exp0 ++ natRepr (n + 1))) = false) :
    (write_record payload exp0 ts folder st).st.fs =
      st.fs.addFile (folder ++ "/" ++ fnameOf (idnOf payload exp0) ts (exp0 ++ natRepr (n + 1)))
        (.text (iv_header :: payload.data.map rowLine)) ∧
    (write_record payload exp0 ts folder st).st.folder = st.folder ∧
    (write_record payload exp0 ts folder st).st.exp_timestamp = st.exp_timestamp ∧
    (write_record payload exp0 ts folder st).err = none := by
  have hcond := sweep_cond_append exp0 (n + 1) hliv
  have hctx := write_record_ctx payload exp0 ts folder st
  refine ⟨?_, hctx.1, hctx.2, ?_⟩
  · simp only [write_record, hliv, if_true, hprobe, hfree, Bool.not_false, hcond,
      headerFor_sweep _ hcond]
    rw [finishBackup_fs]
    exact FS.addFile_appendLines_same st.fs _ iv_header (payload.data.map rowLine)
  · simp only [write_record, hliv, if_true, hprobe, hfree, Bool.not_false, hcond]
    exact finishBackup_err _ _ _ _ _

/-- One `save_data` call under an intact run context, with suffixes `1..n`
taken and everything above free: it creates exactly the suffix-`n+1` file. -/
theorem save_data_sweep_step (now : Nat) (payload : DataPayload) (kind : String)
    (st : SaverState) (f t exp0 : String) (n : Nat)
    (hexp : expOf payload kind = .ok exp0)
    (hliv : (strStartsWith exp0 "liv" || strStartsWith exp0 "div") = true)
    (hf : st.folder = some f) (ht : st.exp_timestamp = some t)
    (hdir : st.fs.pathExists f = true)
    (hex : ∀ j, 1 ≤ j → j ≤ n → st.fs.pathExists (sweepPath payload exp0 f t j) = true)
    (hfree : ∀ j, n < j → st.fs.pathExists (sweepPath payload exp0 f t j) = false)
    (hfuel : n < probeFuel st.fs) :
    (save_data now payload kind st).st.fs =
      st.fs.addFile (sweepPath payload exp0 f t (n + 1))
        (.text (iv_header :: payload.data.map rowLine)) ∧
    (save_data now payload kind st).st.folder = some f ∧
    (save_data now payload kind st).st.exp_timestamp = some t ∧
    (save_data now payload kind st).err = none := by
  have hprobe : probeIvExt st.fs f (idnOf payload exp0) t exp0 (probeFuel st.fs) 1 =
      exp0 ++ natRepr (n + 1) := by
    refine probe_first_free st.fs f (idnOf payload exp0) t exp0 (probeFuel st.fs) 1 (n + 1)
      (by omega) (fun m hm1 hm2 => hex m hm1 (by omega)) (hfree (n + 1) (by omega)) (by omega)
  have hw := write_record_sweep payload exp0 t f st n hliv hprobe
    (hfree (n + 1) (by omega))
  simp only [save_data, hexp, hf, ht, hdir, if_true]
  exact ⟨hw.1, by rw [hw.2.1, hf], by rw [hw.2.2.1, ht], hw.2.2.2⟩

/-- `n` successive `save_data` calls with the same payload and kind. -/
def iterateSave (now : Nat) (payload : DataPayload) (kind : String) :
    Nat → SaverState → SaverState
  | 0, st => st
  | n + 1, st => (save_data now payload kind (iterateSave now payload kind n st)).st

theorem iterate_sweep_invariant (now : Nat) (payload : DataPayload) (kind : String)
    (st0 : SaverState) (f t exp0 : String)
    (hexp : expOf payload kind = .ok exp0)
    (hliv : (strStartsWith exp0 "liv" || strStartsWith exp0 "div") = true)
    (hf : st0.folder = some f) (ht : st0.exp_timestamp = some t)
    (hdir : st0.fs.pathExists f = true)
    (hfresh : ∀ j, 1 ≤ j → st0.fs.pathExists (sweepPath payload exp0 f t j) = false) :
    ∀ n,
      (iterateSave now payload kind n st0).folder = some f ∧
      (iterateSave now payload kind n st0).exp_timestamp = some t ∧
      (iterateSave now payload kind n st0).fs.pathExists f = true ∧
      (iterateSave now payload kind n st0).fs.files.length = n + st0.fs.files.length ∧
      (∀ j, 1 ≤ j → j ≤ n → (iterateSave now payload kind n st0).fs.lookup
        (sweepPath payload exp0 f t j) =
        some (.text (iv_header :: payload.data.map rowLine))) ∧
      (∀ j, n < j → (iterateSave now payload kind n st0).fs.pathExists
        (sweepPath payload exp0 f t j) = false) ∧
      (iterateSave now payload kind n st0).fs.dirs = st0.fs.dirs := by
  intro n
  induction n with
  | zero =>
    exact ⟨hf, ht, hdir, by simp [iterateSave], fun j h1 h2 => absurd (Nat.le_trans h1 h2) (by omega),
      fun j _ => hfresh j (by omega), rfl⟩
  | succ n ih =>
    obtain ⟨ihf, iht, ihdir, ihlen, ihlook, ihfree, ihdirs⟩ := ih
    have ihex : ∀ j, 1 ≤ j → j ≤ n → (iterateSave now payload kind n st0).fs.pathExists
        (sweepPath payload exp0 f t j) = true := by
      intro j h1 h2
      have hl := ihlook j h1 h2
      unfold FS.pathExists
      rw [FS.fileExists_iff_lookup_isSome, hl]
      rfl
    have hfuel : n < probeFuel (iterateSave now payload kind n st0).fs := by
      unfold probeFuel
      omega
    have hstep := save_data_sweep_step now payload kind (iterateSave now payload kind n st0)
      f t exp0 n hexp hliv ihf iht ihdir ihex ihfree hfuel
    simp only [iterateSave]
    refine ⟨hstep.2.1, hstep.2.2.1, ?_, ?_, ?_, ?_, ?_⟩
    · rw [hstep.1, FS.pathExists_addFile]
      rw [ihdir]
      simp
    · rw [hstep.1]
      show (iterateSave now payload kind n st0).fs.files.length + 1 = n + 1 + st0.fs.files.length
      omega
    · intro j h1 h2
      rw [hstep.1]
      rcases Nat.lt_or_ge j (n + 1) with hj | hj
      · have hne : sweepPath payload exp0 f t j ≠ sweepPath payload exp0 f t (n + 1) := by
          intro he
          have := sweepPath_inj payload exp0 f t he
          omega
        rw [FS.lookup_addFile_ne _ _ _ _ hne]
        exact ihlook j h1 (by omega)
      · have hj2 : j = n + 1 := by omega
        subst hj2
        exact FS.lookup_addFile_self _ _ _
    · intro j hj
      rw [hstep.1, FS.pathExists_addFile]
      have hne : sweepPath payload exp0 f t (n + 1) ≠ sweepPath payload exp0 f t j := by
        intro he
        have := sweepPath_inj payload exp0 f t he
        omega
      rw [beq_eq_false_iff_ne.mpr hne, ihfree j (by omega)]
      rfl
    · rw [hstep.1]
      exact ihdirs

/-- C2: the resolver probes suffixes `1, 2, 3, …` in order and picks the
first whose target does not exist; consequently, starting from a run context
with no sweep files for the device, `N` repeated sweep submissions create
exactly the `N` distinct files with suffixes `1..N` (strictly increasing),
each containing its own header plus its own submission's rows only, and no
file with a higher suffix exists. -/
theorem repeated_sweeps_create_distinct_files (now : Nat) (payload : DataPayload)
    (kind : String) (st0 : SaverState) (f t exp0 : String)
    (hexp : expOf payload kind = .ok exp0)
    (hliv : (strStartsWith exp0 "liv" || strStartsWith exp0 "div") = true)
    (hf : st0.folder = some f) (ht : st0.exp_timestamp = some t)
    (hdir : st0.fs.pathExists f = true)
    (hfresh : ∀ j, 1 ≤ j → st0.fs.pathExists (sweepPath payload exp0 f t j) = false)
    (N : Nat) :
    (∀ (fs : FS) (k : Nat), 1 ≤ k →
      (∀ m, 1 ≤ m → m < k →
        fs.pathExists (f ++ "/" ++ fnameOf (idnOf payload exp0) t (exp0 ++ natRepr m)) = true) →
      fs.pathExists (f ++ "/" ++ fnameOf (idnOf payload exp0) t (exp0 ++ natRepr k)) = false →
      k - 1 < probeFuel fs →
      probeIvExt fs f (idnOf payload exp0) t exp0 (probeFuel fs) 1 = exp0 ++ natRepr k) ∧
    (∀ j, 1 ≤ j → j ≤ N → (iterateSave now payload kind N st0).fs.lookup
      (sweepPath payload exp0 f t j) =
      some (.text (iv_header :: payload.data.map rowLine))) ∧
    (∀ j, N < j → (iterateSave now payload kind N st0).fs.pathExists
      (sweepPath payload exp0 f t j) = false) ∧
    (∀ i j, sweepPath payload exp0 f t i = sweepPath payload exp0 f t j → i = j) := by
  have hinv := iterate_sweep_invariant now payload kind st0 f t exp0 hexp hliv hf ht hdir
    hfresh N
  exact ⟨fun fs k hk hall hfr hfl =>
      probe_first_free fs f (idnOf payload exp0) t exp0 (probeFuel fs) 1 k hk hall hfr hfl,
    hinv.2.2.2.2.1, hinv.2.2.2.2.2.1, fun i j => sweepPath_inj payload exp0 f t⟩

/-- Witness: two light iv sweeps in a fresh run create `liv1` and `liv2`,
each with the header and its own rows, and no `liv3` exists. -/
theorem repeated_sweeps_create_distinct_files_witness :
    (iterateSave 0 plW "iv_measurement/1" 2 stW).fs.lookup "r/d1_device1_T.liv1.tsv" =
      some (.text [iv_header, "0\t1"]) ∧
    (iterateSave 0 plW "iv_measurement/1" 2 stW).fs.lookup "r/d1_device1_T.liv2.tsv" =
      some (.text [iv_header, "0\t1"]) ∧
    (iterateSave 0 plW "iv_measurement/1" 2 stW).fs.pathExists "r/d1_device1_T.liv3.tsv" =
      false := by
  have hfresh : ∀ j, 1 ≤ j → stW.fs.pathExists (sweepPath plW "liv" "r" "T" j) = false := by
    intro j hj
    have hne : sweepPath plW "liv" "r" "T" j ≠ "r" := sweepPath_ne_folder plW "liv" "r" "T" j
    show (stW.fs.fileExists _ || stW.fs.dirExists _) = false
    rw [show stW.fs.fileExists (sweepPath plW "liv" "r" "T" j) = false from rfl]
    show (false || (("r" == sweepPath plW "liv" "r" "T" j) || false)) = false
    rw [beq_eq_false_iff_ne.mpr (fun h => hne h.symm)]
    rfl
  have h := repeated_sweeps_create_distinct_files 0 plW "iv_measurement/1" stW "r" "T" "liv"
    (by rfl) (by decide) rfl rfl (by decide) hfresh 2
  refine ⟨?_, ?_, ?_⟩
  · exact h.2.1 1 (by decide) (by decide)
  · exact h.2.1 2 (by decide) (by decide)
  · exact h.2.2.1 3 (by decide)

end MqttSaver
